import Mathlib

/-!
Verification of the digital-budget-optimisation engine.

This file gives a shallow embedding, in Lean 4, of the optimisation and
insight pipeline of the repository (modules 5, 6 and 7) and proves or
refutes the frozen behavioural claims about it.

Modelling conventions:
* Python floats are modelled as rationals.  Where a claim depends on the
  coercion behaviour of the `_safe_float` helpers (NaN, infinities and
  non-numeric values), inputs are modelled with the `PyVal` type, whose
  `safeFloat` function mirrors `_safe_float` exactly; elsewhere numeric
  inputs are taken to be finite numbers, on which `_safe_float` is the
  identity.
* Python dicts are modelled as insertion-ordered association lists with
  `String` keys.  Dict assignment `d[k] = v` is `alSet` (replace in place
  or append), comprehension and assignment loops are folds over `alSet`,
  `d.get(k, dflt)` is `lookupD`, and Python dict equality (order
  insensitive, by key set and values) is `dictEqQ` and `dictEqD`.
* The external LP solver (pulp + CBC) is an opaque oracle `LPOracle`
  supplying a termination status string and a value for every variable,
  exactly as the code reads `model.status` and `varValue` after
  `model.solve`.
* Diagnostics counters of module 6 are write-only bookkeeping never read
  by any claimed property and are not carried in the embedding.
-/

namespace DBO

/-- Result of Python `float(value)` on an arbitrary input: a finite number,
a NaN, an infinity, or a value `float` rejects. -/
inductive PyVal where
  | num (q : ℚ)
  | nan
  | inf
  | ninf
  | nonnum
deriving DecidableEq

/-- Embeds `_safe_float(value, default)` (module5.py lines 53-62, module6.py
lines 127-136, module7.py `_f` lines 63-70): a finite float is returned
unchanged; conversion failure, NaN and the two infinities give the default. -/
def safeFloat : PyVal → ℚ → ℚ
  | .num q, _ => q
  | .nan, d => d
  | .inf, d => d
  | .ninf, d => d
  | .nonnum, d => d

/-- Code-point lexicographic comparison of character lists, the order that
Python string comparison uses. -/
def charListLe : List Char → List Char → Bool
  | [], _ => true
  | _ :: _, [] => false
  | a :: as, b :: bs => if a < b then true else if b < a then false else charListLe as bs

/-- Python `s1 <= s2` on strings: code-point lexicographic order. -/
def strLe (a b : String) : Bool := charListLe a.data b.data

/-- Python `str.lower()` (ASCII letters, which is all the code uses). -/
def pyLower (s : String) : String := ⟨s.data.map Char.toLower⟩

/-- Python `str.strip()`: drop whitespace from both ends. -/
def pyStrip (s : String) : String :=
  ⟨((s.data.dropWhile Char.isWhitespace).reverse.dropWhile Char.isWhitespace).reverse⟩

/-- Embeds module7 `_k` / module6 `_norm_platform` / `_norm_goal`:
`str(x).strip().lower()`. -/
def normKey (s : String) : String := pyLower (pyStrip s)

/-- Python `k in d` for a dict modelled as an association list. -/
def hasKey (d : List (String × α)) (k : String) : Bool :=
  d.any (fun kv => kv.1 == k)

/-- Python `d.get(k, dflt)` / `d[k]` for a dict modelled as an association
list: value of the (unique) entry for `k`, or the default. -/
def lookupD (d : List (String × α)) (k : String) (dflt : α) : α :=
  match d.find? (fun kv => kv.1 == k) with
  | some kv => kv.2
  | none => dflt

/-- Python dict assignment `d[k] = v`: replace the entry in place if the key
is present, otherwise append a new entry. -/
def alSet : List (String × α) → String → α → List (String × α)
  | [], k, v => [(k, v)]
  | kv :: rest, k, v => if kv.1 == k then (k, v) :: rest else kv :: alSet rest k v

/-- Key list of a dict modelled as an association list. -/
def alKeys (d : List (String × α)) : List String := d.map Prod.fst

/-- Python dict comprehension `{k: f(k) for k in ks}` (later duplicate keys
overwrite earlier ones, insertion order is kept). -/
def dictOf (ks : List String) (f : String → α) : List (String × α) :=
  ks.foldl (fun acc k => alSet acc k (f k)) []

/-- Python `sum(d.values())`. -/
def valuesSum (d : List (String × ℚ)) : ℚ := (d.map Prod.snd).sum

/-! Module 5: allocation optimiser (src/modules/module5.py). -/

/-- Embeds the `Module5LPResult` dataclass (module5.py lines 28-36). -/
structure Module5LPResult where
  budget_per_platform_goal : List (String × List (String × ℚ))
  budget_per_platform : List (String × ℚ)
  total_budget_used : ℚ
  objective_value : ℚ
  r_pg : List (String × List (String × ℚ))
  combined_weight_pg : List (String × List (String × ℚ))
  estimated_kpi_per_platform_goal : List (String × List (String × ℚ))
deriving DecidableEq

instance : Inhabited Module5LPResult := ⟨⟨[], [], 0, 0, [], [], []⟩⟩

/-- Embeds `_nonneg_dict` (module5.py lines 65-74): coerce every value with
`_safe_float` and clamp negatives to zero (on finite numeric values the
coercion is the identity). -/
def nonnegDict (d : List (String × ℚ)) : List (String × ℚ) :=
  d.map (fun kv => (kv.1, if kv.2 < 0 then 0 else kv.2))

/-- Embeds `_default_scenario_multipliers` (module5.py lines 169-170). -/
def defaultScenarioMultipliers : List (String × PyVal) :=
  [("conservative", .num (85/100)), ("base", .num 1), ("optimistic", .num (115/100))]

/-- Embeds the scenario-multiplier part of `_extract_policy_from_state`
(module5.py lines 181-193): fall back to the default map when the state
value is not a non-empty dict, coerce each entry with `_safe_float(mult, 1.0)`,
drop non-positive results, then add `"base" = 1.0` only when absent. -/
def extractScenarioMultipliers (stateSM : Option (List (String × PyVal))) :
    List (String × ℚ) :=
  let sms := match stateSM with
    | some m => if m.isEmpty then defaultScenarioMultipliers else m
    | none => defaultScenarioMultipliers
  let sm := sms.foldl (fun acc nm =>
    let m := safeFloat nm.2 1
    if m ≤ 0 then acc else alSet acc nm.1 m) []
  if hasKey sm "base" then sm else alSet sm "base" 1

/-- The literal `1e-9` used in the pre-solve feasibility checks. -/
def eps9 : ℚ := 1/1000000000

/-- Embeds `_extract_policy_from_state` (module5.py lines 173-217): clamp the
declared floors to nonnegative values, restrict them to the supplied active
platforms and valid goals, build the scenario-multiplier map, and raise
`Module5ValidationError` when either restricted floor sum exceeds
`total_budget + 1e-9`. -/
def extractPolicyFromState
    (stateMinSpend stateMinGoal : List (String × ℚ))
    (stateSM : Option (List (String × PyVal)))
    (valid_goals active_platforms : List String)
    (total_budget : ℚ) :
    Except String (List (String × ℚ) × List (String × ℚ) × List (String × ℚ)) :=
  let msp0 := nonnegDict stateMinSpend
  let mbg0 := nonnegDict stateMinGoal
  let sm := extractScenarioMultipliers stateSM
  let min_spend_per_platform :=
    dictOf active_platforms (fun p => max 0 (lookupD msp0 p 0))
  let min_budget_per_goal :=
    dictOf valid_goals (fun g => max 0 (lookupD mbg0 g 0))
  let sum_min_platform := valuesSum min_spend_per_platform
  let sum_min_goal := valuesSum min_budget_per_goal
  if sum_min_platform > total_budget + eps9 then
    .error "Infeasible policy: sum of minimum platform spends exceeds total budget."
  else if sum_min_goal > total_budget + eps9 then
    .error "Infeasible policy: sum of minimum goal budgets exceeds total budget."
  else
    .ok (min_spend_per_platform, min_budget_per_goal, sm)

/-- The external LP solver as an opaque oracle: the termination status read
from `pulp.LpStatus[model.status]`, a value per variable `x_{p}_{g}` read from
`varValue` (possibly missing or non-numeric), and the reported objective from
`pulp.value(model.objective)`. -/
structure LPOracle where
  status : String
  value : String → String → PyVal
  objective : PyVal

/-- The linear model handed to the solver by `_solve_single_lp` (module5.py
lines 295-321): objective coefficients per pair, the budget bound, and the
floor constraints that were actually added. -/
structure LPModelDesc where
  objectiveCoeff : List (String × List (String × ℚ))
  budgetBound : ℚ
  platformFloors : List (String × ℚ)
  goalFloors : List (String × ℚ)
deriving DecidableEq

/-- Builds the model description exactly as `_solve_single_lp` does: one
coefficient `combined_weight_pg[p][g] * r_pg[p][g]` per pair, the single
budget constraint, a floor per platform in `platforms` whose minimum spend is
positive, and a floor per goal in `valid_goals` whose minimum budget is
positive. -/
def buildLPModel (platforms valid_goals : List String)
    (combined r_pg : List (String × List (String × ℚ)))
    (minP minG : List (String × ℚ)) (total_budget : ℚ) : LPModelDesc :=
  { objectiveCoeff := dictOf platforms (fun p =>
      dictOf valid_goals (fun g =>
        lookupD (lookupD combined p []) g 0 * lookupD (lookupD r_pg p []) g 0))
    budgetBound := total_budget
    platformFloors := platforms.filterMap (fun p =>
      let m := lookupD minP p 0
      if m > 0 then some (p, m) else none)
    goalFloors := valid_goals.filterMap (fun g =>
      let m := lookupD minG g 0
      if m > 0 then some (g, m) else none) }

/-- Sum of `f p g` over the platform and goal lists, the shape of every
`sum(... for p in platforms for g in valid_goals)` in `_solve_single_lp`. -/
def sumPG (ps gs : List String) (f : String → String → ℚ) : ℚ :=
  (ps.map (fun p => (gs.map (fun g => f p g)).sum)).sum

/-- Embeds `_solve_single_lp` (module5.py lines 263-363).  Input validation
errors come first; then the model is built and solved by the oracle; a status
other than Optimal or Feasible raises `Module5ValidationError` carrying the
raw status; otherwise each variable value is read back, clamped at zero, and
assembled into a `Module5LPResult`. -/
def solveSingleLP (oracle : LPOracle)
    (valid_goals : List String) (total_budget : ℚ)
    (system_goal_weights : List (String × ℚ))
    (platform_goal_weights r_pg : List (String × List (String × ℚ)))
    (min_spend_per_platform min_budget_per_goal : List (String × ℚ)) :
    Except String Module5LPResult :=
  if valid_goals.isEmpty then .error "Module 5 LP, valid_goals is empty."
  else if total_budget ≤ 1 then .error "Module 5 LP, total_budget must be greater than 1."
  else if system_goal_weights.isEmpty then .error "Module 5 LP, system_goal_weights is empty."
  else if platform_goal_weights.isEmpty then .error "Module 5 LP, platform_goal_weights is empty."
  else if r_pg.isEmpty then .error "Module 5 LP, r_pg is empty."
  else
    let platforms := alKeys r_pg
    let combined_weight_pg := dictOf platforms (fun p =>
      dictOf valid_goals (fun g =>
        lookupD system_goal_weights g 0 *
          lookupD (lookupD platform_goal_weights p []) g 0))
    let _model := buildLPModel platforms valid_goals combined_weight_pg r_pg
      min_spend_per_platform min_budget_per_goal total_budget
    let status := oracle.status
    if ¬ (status = "Optimal" ∨ status = "Feasible") then
      .error ("LP solve failed with status: " ++ status)
    else
      let val := fun p g =>
        let v := safeFloat (oracle.value p g) 0
        if v < 0 then 0 else v
      let budget_per_platform_goal := dictOf platforms (fun p =>
        dictOf valid_goals (fun g => val p g))
      let budget_per_platform := dictOf platforms (fun p =>
        (valid_goals.map (fun g => val p g)).sum)
      let estimated_kpi := dictOf platforms (fun p =>
        dictOf valid_goals (fun g => lookupD (lookupD r_pg p []) g 0 * val p g))
      let total_budget_used := sumPG platforms valid_goals val
      .ok { budget_per_platform_goal := budget_per_platform_goal
            budget_per_platform := budget_per_platform
            total_budget_used := total_budget_used
            objective_value := safeFloat oracle.objective 0
            r_pg := r_pg
            combined_weight_pg := combined_weight_pg
            estimated_kpi_per_platform_goal := estimated_kpi }

/-- Embeds `Module5ScenarioBundle.get_base` (module5.py lines 44-50): the
result keyed `"base"` when present, else the result under the first key of
`sorted(keys)`, else `Module5ValidationError`. -/
def module5GetBase (results_by_scenario : List (String × Module5LPResult)) :
    Except String Module5LPResult :=
  match results_by_scenario.find? (fun kv => kv.1 == "base") with
  | some kv => .ok kv.2
  | none =>
    match (alKeys results_by_scenario).mergeSort strLe with
    | k :: _ => .ok (lookupD results_by_scenario k default)
    | [] => .error "No scenario results available."

/-! Module 6: forecast projector (src/modules/module6.py). -/

/-- Embeds the `Module6ForecastRow` dataclass (module6.py lines 10-17). -/
structure Module6ForecastRow where
  platform : String
  objective : String
  kpi_name : String
  ratio_kpi_per_budget : ℚ
  allocated_budget : ℚ
  predicted_kpi : ℚ
deriving DecidableEq

/-- Embeds `Module6Result` (module6.py lines 47-50) restricted to its rows;
the diagnostics counters are write-only bookkeeping never read by a claim. -/
structure Module6Result where
  rows : List Module6ForecastRow
deriving DecidableEq

instance : Inhabited Module6Result := ⟨⟨[]⟩⟩

/-- Embeds `_normalise_allocation_pg` (module6.py lines 154-170): normalise
platform and goal keys, skip empty goal maps, keep the value through
`_safe_float` (identity on finite numbers).  Key collisions after
normalisation merge into one entry, as Python dict assignment does. -/
def normaliseAllocationPG (allocation_pg : List (String × List (String × ℚ))) :
    List (String × List (String × ℚ)) :=
  allocation_pg.foldl (fun out pg =>
    if pg.2.isEmpty then out
    else
      let pk := normKey pg.1
      let out := if hasKey out pk then out else alSet out pk []
      pg.2.foldl (fun out gv =>
        alSet out pk (alSet (lookupD out pk []) (normKey gv.1) gv.2)) out) []

/-- Embeds `_normalise_ratios_pgv` (module6.py lines 173-226) without the
write-only diagnostics: normalise platform, goal and KPI keys of the
three-level ratio map, skipping empty inner dicts. -/
def normaliseRatiosPGV
    (kpi_ratios : List (String × List (String × List (String × ℚ)))) :
    List (String × List (String × List (String × ℚ))) :=
  kpi_ratios.foldl (fun out pg =>
    if pg.2.isEmpty then out
    else
      let pk := normKey pg.1
      let out := if hasKey out pk then out else alSet out pk []
      pg.2.foldl (fun out gv =>
        if gv.2.isEmpty then out
        else
          let gk := normKey gv.1
          let out :=
            if hasKey (lookupD out pk []) gk then out
            else alSet out pk (alSet (lookupD out pk []) gk [])
          gv.2.foldl (fun out kv =>
            alSet out pk (alSet (lookupD out pk [])
              gk (alSet (lookupD (lookupD out pk []) gk []) (pyStrip kv.1) kv.2))) out) out) []

/-- Embeds the row-emission loop of `compute_module6_forecast` (module6.py
lines 270-327): per (platform, goal) pair with allocation at least the
threshold, one row per recorded KPI whose ratio and predicted value are both
positive, then the final sort by (platform, objective, kpi name). -/
def computeModule6Forecast
    (kpi_ratios : List (String × List (String × List (String × ℚ))))
    (module5_result : Module5LPResult)
    (min_budget_threshold : ℚ) : Except String Module6Result :=
  if min_budget_threshold ≤ 0 then
    .error "min_budget_threshold must be greater than 0."
  else
    let allocation_pg := normaliseAllocationPG module5_result.budget_per_platform_goal
    let ratios_pgv := normaliseRatiosPGV kpi_ratios
    let rows := allocation_pg.flatMap (fun pg =>
      if pg.2.isEmpty then []
      else pg.2.flatMap (fun gv =>
        let budget_val := gv.2
        if budget_val < min_budget_threshold then []
        else
          let ratios_for_goal := lookupD (lookupD ratios_pgv pg.1 []) gv.1 []
          if ratios_for_goal.isEmpty then []
          else ratios_for_goal.filterMap (fun kv =>
            let ratio_val := kv.2
            if ratio_val ≤ 0 then none
            else
              let predicted := ratio_val * budget_val
              if predicted ≤ 0 then none
              else some { platform := pg.1
                          objective := gv.1
                          kpi_name := kv.1
                          ratio_kpi_per_budget := ratio_val
                          allocated_budget := budget_val
                          predicted_kpi := predicted })))
    let sorted := rows.mergeSort (fun a b =>
      strLe a.platform b.platform &&
        (!strLe b.platform a.platform ||
          (strLe a.objective b.objective &&
            (!strLe b.objective a.objective || strLe a.kpi_name b.kpi_name))))
    .ok { rows := sorted }

/-- Embeds `Module6ScenarioResult.get_base` (module6.py lines 118-124): like
the module 5 variant but an empty bundle returns an empty result instead of
raising. -/
def module6GetBase (results_by_scenario : List (String × Module6Result)) :
    Module6Result :=
  match results_by_scenario.find? (fun kv => kv.1 == "base") with
  | some kv => kv.2
  | none =>
    match (alKeys results_by_scenario).mergeSort strLe with
    | k :: _ => lookupD results_by_scenario k default
    | [] => { rows := [] }

/-! Module 7: decision insight engine (src/modules/module7.py). -/

/-- Embeds the `Module5ScenarioBundle` dataclass (module5.py lines 39-42). -/
structure Module5ScenarioBundle where
  results_by_scenario : List (String × Module5LPResult)
  scenario_multipliers : List (String × ℚ)

/-- Embeds the `PlanOutput` dataclass (module7.py lines 26-31). -/
structure PlanOutput where
  allocation : List (String × List (String × ℚ))
  objective_value_estimate : ℚ
  kpi_focus : String
  tradeoff_percent : Option ℚ
deriving DecidableEq

/-- The wizard-state fields module 7 reads. -/
structure WizardStateM7 where
  total_budget : ℚ
  valid_goals : List String
  active_platforms : List String
  min_spend_per_platform : List (String × ℚ)
  min_budget_per_goal : List (String × ℚ)

/-- The `PLATFORM_NAMES` table (module7.py lines 11-16). -/
def platformNames : List (String × String) :=
  [("fb", "Facebook"), ("ig", "Instagram"), ("li", "LinkedIn"), ("yt", "YouTube")]

/-- The `GOAL_NAMES` table (module7.py lines 18-23). -/
def goalNames : List (String × String) :=
  [("aw", "Awareness"), ("en", "Engagement"), ("wt", "Website Traffic"), ("lg", "Lead Generation")]

/-- Python truthiness of an optional string: `None` and the empty string are
falsy. -/
def optTruthy : Option String → Bool
  | some s => !(s == "")
  | none => false

/-- Embeds `_pname` (module7.py lines 77-80). -/
def pname (code : Option String) : String :=
  match code with
  | none => ""
  | some c => if c == "" then "" else lookupD platformNames (normKey c) c

/-- Embeds `_gname` (module7.py lines 83-86). -/
def gname (code : Option String) : String :=
  match code with
  | none => ""
  | some c => if c == "" then "" else lookupD goalNames (normKey c) c

/-- The literal `1e-6` used by module 7. -/
def eps6 : ℚ := 1/1000000

/-- Embeds `_platform_totals` (module7.py lines 89-98). -/
def platformTotals (lp : Module5LPResult) : List (String × ℚ) :=
  if !lp.budget_per_platform.isEmpty then
    lp.budget_per_platform.foldl (fun acc kv => alSet acc (normKey kv.1) (max 0 kv.2)) []
  else
    lp.budget_per_platform_goal.foldl (fun acc pg =>
      alSet acc (normKey pg.1) ((pg.2.map (fun gv => max 0 gv.2)).sum)) []

/-- Embeds `_goal_totals` (module7.py lines 101-107). -/
def goalTotals (lp : Module5LPResult) : List (String × ℚ) :=
  lp.budget_per_platform_goal.foldl (fun acc pg =>
    pg.2.foldl (fun acc gv =>
      let gg := normKey gv.1
      alSet acc gg (lookupD acc gg 0 + max 0 gv.2)) acc) []

/-- Embeds `_dominant` (module7.py lines 110-116): head of the value-descending
stable sort, when its value is positive. -/
def dominant (d : List (String × ℚ)) : Option String :=
  match d.mergeSort (fun a b => decide (b.2 ≤ a.2)) with
  | [] => none
  | kv :: _ => if kv.2 ≤ 0 then none else some kv.1

/-- Embeds `_ratio` (module7.py lines 119-124), the share of the top entry in
the clamped total.  `max` over the nonempty clamped values equals the fold of
`max` from 0 because all clamped values are nonnegative. -/
def topShare (d : List (String × ℚ)) : ℚ :=
  let t := (d.map (fun kv => max 0 kv.2)).sum
  if t ≤ 0 then 0
  else
    let top := (d.map (fun kv => max 0 kv.2)).foldl max 0
    top / t

/-- Embeds `_nonzero_allocations` (module7.py lines 127-133). -/
def nonzeroAllocations (lp : Module5LPResult) : ℕ :=
  lp.budget_per_platform_goal.foldl (fun c pg =>
    pg.2.foldl (fun c gv => if gv.2 > eps6 then c + 1 else c) c) 0

/-- Rounding to six decimal places, `round(x, 6)` in `_alloc_signature`; the
tie-breaking mode of Python (half to even) versus Mathlib (half up) is
immaterial to every claim. -/
def round6 (x : ℚ) : ℚ := (round (x * 1000000) : ℚ) / 1000000

/-- Embeds `_alloc_signature` (module7.py lines 140-147).  Note the source
resets `sig[pk]` to a fresh dict for every raw platform key. -/
def allocSignature (lp : Module5LPResult) : List (String × List (String × ℚ)) :=
  lp.budget_per_platform_goal.foldl (fun sig pg =>
    let pk := normKey pg.1
    let sig := alSet sig pk []
    pg.2.foldl (fun sig gv =>
      alSet sig pk (alSet (lookupD sig pk []) (normKey gv.1) (round6 (max 0 gv.2)))) sig) []

/-- Python `==` on two str-to-float dicts: equal key sets and equal values. -/
def dictEqQ (a b : List (String × ℚ)) : Bool :=
  (a.all fun kv => hasKey b kv.1 && (lookupD b kv.1 0 == lookupD a kv.1 0)) &&
  (b.all fun kv => hasKey a kv.1)

/-- Python `==` on two nested str-to-dict dicts: equal key sets and equal
inner dicts. -/
def dictEqD (a b : List (String × List (String × ℚ))) : Bool :=
  (a.all fun kv => hasKey b kv.1 && dictEqQ (lookupD b kv.1 []) (lookupD a kv.1 [])) &&
  (b.all fun kv => hasKey a kv.1)

/-- Embeds `_allocations_identical` (module7.py lines 150-159): true when at
most one scenario, else every later signature must equal the first. -/
def allocationsIdentical (results_by_scenario : List (String × Module5LPResult)) : Bool :=
  match alKeys results_by_scenario with
  | [] => true
  | [_] => true
  | k0 :: rest =>
    let base := allocSignature (lookupD results_by_scenario k0 default)
    rest.all (fun k => dictEqD (allocSignature (lookupD results_by_scenario k default)) base)

/-- Embeds `_classification` (module7.py lines 211-221). -/
def classification (bundle : Module5ScenarioBundle) (lp : Module5LPResult) : String :=
  if !allocationsIdentical bundle.results_by_scenario then "Scenario-sensitive"
  else
    let pt := platformTotals lp
    let pr := topShare pt
    let nz := nonzeroAllocations lp
    if pr ≥ 8/10 ∨ nz ≤ 2 then "Corner-dominant"
    else if 3 ≤ nz ∧ pr ≤ 7/10 then "Balanced"
    else "Unclear"

/-- Embeds `_data_quality_note` (module7.py lines 224-246). -/
def dataQualityNote (lp : Module5LPResult) (fc : Option Module6Result) : Option String :=
  let issues : List String :=
    match fc with
    | none => ["No forecast rows are available for this scenario."]
    | some f =>
      if f.rows.isEmpty then ["No forecast rows are available for this scenario."]
      else
        let total := f.rows.length
        let small := (f.rows.filter (fun r => r.predicted_kpi < 5)).length
        if 0 < total ∧ (small : ℚ) / (total : ℚ) ≥ 1/2 then
          ["Many forecast KPI values are very small, which may indicate unit or scaling issues in the input data."]
        else []
  let issues :=
    if lp.r_pg.isEmpty then
      issues ++ ["Productivity ratios are missing in the LP result."]
    else issues
  if issues.isEmpty then none else some (String.intercalate " " issues)

/-- Embeds `_confidence` (module7.py lines 249-278): start from 100, subtract
stepwise penalties, clamp into [40, 100]. -/
def confidence (lp : Module5LPResult) (bundle : Module5ScenarioBundle)
    (fc : Option Module6Result) (dq_note : Option String) : ℤ :=
  let score : ℤ := 100
  let pt := platformTotals lp
  let pr := topShare pt
  let nz := nonzeroAllocations lp
  let score := if pr ≥ 9/10 then score - 20 else if pr ≥ 8/10 then score - 12 else score
  let score := if nz ≤ 2 then score - 8 else score
  let score := if !allocationsIdentical bundle.results_by_scenario then score - 10 else score
  let score := if (match fc with | none => true | some f => f.rows.isEmpty) then score - 18 else score
  let score := if optTruthy dq_note then score - 12 else score
  let score := if score < 40 then (40 : ℤ) else score
  let score := if score > 100 then (100 : ℤ) else score
  score

/-- Embeds `_score_pg` (module7.py lines 281-299): positive products of
clamped productivity and clamped combined weight, platforms with no positive
entry filtered away. -/
def scorePG (lp : Module5LPResult) : List (String × List (String × ℚ)) :=
  let scores := lp.r_pg.foldl (fun scores pg =>
    let pk := normKey pg.1
    let scores := if hasKey scores pk then scores else alSet scores pk []
    pg.2.foldl (fun scores gr =>
      let rr := max 0 gr.2
      let ww := max 0 (lookupD (lookupD lp.combined_weight_pg pg.1 []) gr.1 0)
      let val := rr * ww
      if val > 0 then alSet scores pk (alSet (lookupD scores pk []) (normKey gr.1) val)
      else scores) scores) []
  scores.filter (fun pg => !pg.2.isEmpty)

/-- Embeds `_objective_scale` (module7.py lines 302-307).  The probe
`getattr(lp, "objective_value_raw", 0.0)` always yields the default 0.0
because `Module5LPResult` defines no such field, so the branch condition is
never met and the function always returns 1000.0. -/
def objectiveScale (lp : Module5LPResult) : ℚ :=
  let raw : ℚ := 0
  let scaled := lp.objective_value
  if 0 < raw ∧ 0 < scaled then scaled / raw else 1000

/-- Embeds `_estimate_objective_value` (module7.py lines 310-319). -/
def estimateObjectiveValue (allocation : List (String × List (String × ℚ)))
    (lp_ref : Module5LPResult) : ℚ :=
  let scores := scorePG lp_ref
  let scale := objectiveScale lp_ref
  let raw := (allocation.map (fun pg =>
    let pk := normKey pg.1
    (pg.2.map (fun gb =>
      max 0 gb.2 * max 0 (lookupD (lookupD scores pk []) (normKey gb.1) 0))).sum)).sum
  raw * scale

/-- Embeds `_plan_a` (module7.py lines 322-349). -/
def planA (lp : Module5LPResult) : PlanOutput :=
  let pt := platformTotals lp
  let gt := goalTotals lp
  let dp := dominant pt
  let dg := dominant gt
  let focus :=
    if optTruthy dp && optTruthy dg then pname dp ++ " and " ++ gname dg
    else if optTruthy dp then pname dp
    else if optTruthy dg then gname dg
    else "No clear primary lane"
  let alloc := lp.budget_per_platform_goal.foldl (fun alloc pg =>
    let pk := normKey pg.1
    let alloc := alSet alloc pk []
    pg.2.foldl (fun alloc gv =>
      alSet alloc pk (alSet (lookupD alloc pk []) (normKey gv.1) (max 0 gv.2))) alloc) []
  { allocation := alloc
    objective_value_estimate := lp.objective_value
    kpi_focus := focus
    tradeoff_percent := none }

/-- Embeds `_apply_minimums` (module7.py lines 352-401): top platform floors
up from the first valid goal, then goal floors from the first active
platform, then rescale proportionally when the clamped total exceeds the
budget by more than 1e-6. -/
def applyMinimums (state : WizardStateM7) (allocation : List (String × List (String × ℚ)))
    (total_budget : ℚ) (valid_goals active_platforms : List String) :
    List (String × List (String × ℚ)) :=
  let out := dictOf active_platforms (fun p => lookupD allocation p [])
  let out := active_platforms.foldl (fun out p =>
    let req := max 0 (lookupD state.min_spend_per_platform p 0)
    if req ≤ 0 then out
    else
      let cur := ((lookupD out p []).map (fun gv => max 0 gv.2)).sum
      if cur + eps9 < req then
        let need := req - cur
        let g0 := valid_goals.headD "aw"
        let out := if hasKey out p then out else alSet out p []
        alSet out p (alSet (lookupD out p []) g0 (max 0 (lookupD (lookupD out p []) g0 0) + need))
      else out) out
  let out := valid_goals.foldl (fun out g =>
    let req := max 0 (lookupD state.min_budget_per_goal g 0)
    if req ≤ 0 then out
    else
      let cur := (active_platforms.map (fun p => max 0 (lookupD (lookupD out p []) g 0))).sum
      if cur + eps9 < req then
        let need := req - cur
        let p0 := active_platforms.headD "fb"
        let out := if hasKey out p0 then out else alSet out p0 []
        alSet out p0 (alSet (lookupD out p0 []) g (max 0 (lookupD (lookupD out p0 []) g 0) + need))
      else out) out
  let used := sumPG active_platforms valid_goals
    (fun p g => max 0 (lookupD (lookupD out p []) g 0))
  if used ≤ 0 then out
  else if used > total_budget + eps6 then
    let scale := total_budget / used
    active_platforms.foldl (fun out p =>
      (lookupD out p []).foldl (fun out gv =>
        alSet out p (alSet (lookupD out p []) gv.1
          (max 0 (lookupD (lookupD out p []) gv.1 0) * scale))) out) out
  else out

/-- Embeds `_plan_b_risk_managed` (module7.py lines 404-501).  (Python would
raise a KeyError in the redistribution loop if `_score_pg` named a platform
outside the active list; no claim exercises that case and the embedding
extends the dict instead.) -/
def planBRiskManaged (state : WizardStateM7) (lp : Module5LPResult)
    (cap_top_platform_share : ℚ := 7/10) : Option PlanOutput :=
  let tb0 := max 0 lp.total_budget_used
  let total_budget := if tb0 ≤ 0 then max 0 state.total_budget else tb0
  if total_budget ≤ 0 then none
  else
    let valid_goals := state.valid_goals.map normKey
    let active_platforms := state.active_platforms.map normKey
    if valid_goals.isEmpty || active_platforms.isEmpty then none
    else
      let plan_a := planA lp
      let pt_a := plan_a.allocation.foldl (fun acc pg =>
        alSet acc pg.1 ((pg.2.map (fun gv => max 0 gv.2)).sum)) []
      match dominant pt_a with
      | none => none
      | some top_p =>
        let cap_value := max 0 cap_top_platform_share * total_budget
        let current_top := max 0 (lookupD pt_a top_p 0)
        if current_top ≤ cap_value + eps6 then
          some { allocation := plan_a.allocation
                 objective_value_estimate := estimateObjectiveValue plan_a.allocation lp
                 kpi_focus := "Diversified execution"
                 tradeoff_percent := some 0 }
        else
          let scores := scorePG lp
          if scores.isEmpty then none
          else
            let alloc_b := dictOf active_platforms (fun _ => ([] : List (String × ℚ)))
            let alloc_b := active_platforms.foldl (fun ab p =>
              valid_goals.foldl (fun ab g => alSet ab p (alSet (lookupD ab p []) g 0)) ab) alloc_b
            let top_alloc := lookupD plan_a.allocation top_p []
            let alloc_b :=
              if 0 < current_top then
                let factor := cap_value / current_top
                top_alloc.foldl (fun ab gv =>
                  alSet ab top_p (alSet (lookupD ab top_p []) (normKey gv.1)
                    (max 0 gv.2 * factor))) alloc_b
              else alloc_b
            let remaining0 := total_budget - (active_platforms.map (fun p =>
              ((lookupD alloc_b p []).map (fun gv => max 0 gv.2)).sum)).sum
            let remaining := if remaining0 < 0 then 0 else remaining0
            let weights : List (String × String × ℚ) := scores.flatMap (fun pg =>
              let pk := normKey pg.1
              if pk == top_p then []
              else pg.2.filterMap (fun gs =>
                let gk := normKey gs.1
                if valid_goals.contains gk then
                  let w := max 0 gs.2
                  if 0 < w then some (pk, gk, w) else none
                else none))
            let total_w := (weights.map (fun w => w.2.2)).sum
            if total_w ≤ 0 then
              let alloc_b := applyMinimums state alloc_b total_budget valid_goals active_platforms
              some { allocation := alloc_b
                     objective_value_estimate := estimateObjectiveValue alloc_b lp
                     kpi_focus := "Diversified execution"
                     tradeoff_percent := none }
            else
              let alloc_b := weights.foldl (fun ab w =>
                alSet ab w.1 (alSet (lookupD ab w.1 []) w.2.1
                  (lookupD (lookupD ab w.1 []) w.2.1 0 + remaining * (w.2.2 / total_w)))) alloc_b
              let alloc_b := applyMinimums state alloc_b total_budget valid_goals active_platforms
              let obj_a := estimateObjectiveValue plan_a.allocation lp
              let obj_b := estimateObjectiveValue alloc_b lp
              let tradeoff :=
                if obj_a > eps9 then some (max 0 ((obj_a - obj_b) / obj_a) * 100) else none
              some { allocation := alloc_b
                     objective_value_estimate := obj_b
                     kpi_focus := "Diversified execution"
                     tradeoff_percent := tradeoff }

/-- Modelled from the spec (section 4.6): the claimed confidence formula
round(0.35 concentration + 0.20 stability + 0.25 coverage + 0.20 data
quality) clamped to [40, 100], with the component values the spec assigns. -/
def specConfidence (conc stab cover dq : ℚ) : ℤ :=
  max 40 (min 100 (round ((35/100) * conc + (20/100) * stab + (25/100) * cover + (20/100) * dq)))

/-- Concrete scenario result: 400 / 300 / 300 across three platforms, top
share 0.40, three funded pairs. -/
def lpC3A : Module5LPResult :=
  ⟨[("fb", [("aw", 400)]), ("ig", [("aw", 300)]), ("li", [("aw", 300)])],
    [("fb", 400), ("ig", 300), ("li", 300)], 1000, 0, [("fb", [("aw", 1)])], [], []⟩

/-- Concrete scenario result with a different allocation (500 / 250 / 250). -/
def lpC3B : Module5LPResult :=
  ⟨[("fb", [("aw", 500)]), ("ig", [("aw", 250)]), ("li", [("aw", 250)])],
    [("fb", 500), ("ig", 250), ("li", 250)], 1000, 0, [("fb", [("aw", 1)])], [], []⟩

/-- Concrete forecast with one row predicting 10 (no data-quality flag). -/
def fcC3 : Module6Result := ⟨[⟨"fb", "aw", "imp", 2, 100, 10⟩]⟩

/-- Single-scenario bundle around `lpC3A`. -/
def bundleC3A : Module5ScenarioBundle := ⟨[("base", lpC3A)], [("base", 1)]⟩

/-- Two-scenario bundle whose allocations differ across scenarios. -/
def bundleC3B : Module5ScenarioBundle :=
  ⟨[("base", lpC3A), ("optimistic", lpC3B)], [("base", 1), ("optimistic", 115/100)]⟩

/-- Concrete corner allocation: the whole budget of 1000 on (fb, aw), with
productivity 2 and combined weight 1, reported LP optimum 2000. -/
def lpC2 : Module5LPResult :=
  ⟨[("fb", [("aw", 1000)])], [("fb", 1000)], 1000, 2000, [("fb", [("aw", 2)])],
    [("fb", [("aw", 1)])], [("fb", [("aw", 2000)])]⟩

/-- Wizard state matching `lpC2`: one platform, one goal, no floors. -/
def stateC2 : WizardStateM7 := ⟨1000, ["aw"], ["fb"], [], []⟩

/-! Helper lemmas about the dict model and the string order. -/

theorem lookupD_alSet_self (d : List (String × α)) (k : String) (v : α) (dflt : α) :
    lookupD (alSet d k v) k dflt = v := by
  induction d with
  | nil => simp [alSet, lookupD, List.find?]
  | cons kv rest ih =>
    by_cases h : kv.1 = k
    · simp [alSet, h, lookupD, List.find?]
    · have hb : (kv.1 == k) = false := by simp [h]
      simp only [alSet, hb, Bool.false_eq_true, if_false, lookupD]
      rw [List.find?_cons_of_neg _ (by simp [h])]
      exact ih

theorem hasKey_iff (d : List (String × α)) (k : String) :
    hasKey d k = true ↔ ∃ kv, kv ∈ d ∧ kv.1 = k := by
  simp [hasKey, List.any_eq_true]

theorem hasKey_alSet (d : List (String × α)) (k k' : String) (v : α) :
    hasKey (alSet d k v) k' = (hasKey d k' || k == k') := by
  induction d with
  | nil => simp [alSet, hasKey, Bool.or_comm]
  | cons kv rest ih =>
    by_cases h : kv.1 = k
    · by_cases h' : kv.1 = k'
      · simp [alSet, hasKey, h, h', h ▸ h', eq_comm]
      · have : ¬ k = k' := fun e => h' (h.trans e)
        simp [alSet, hasKey, h, h', this]
    · simp only [alSet, beq_iff_eq, h, if_false, hasKey, List.any_cons]
      simp only [hasKey] at ih
      rw [ih, Bool.or_assoc]

theorem mem_alSet_of_ne (d : List (String × α)) (k : String) (v : α) (kv : String × α)
    (hk : kv.1 ≠ k) : kv ∈ alSet d k v → kv ∈ d := by
  induction d with
  | nil =>
    intro h
    simp only [alSet, List.mem_singleton] at h
    exact absurd (h ▸ rfl) hk
  | cons kv0 rest ih =>
    intro h
    by_cases h0 : kv0.1 = k
    · simp only [alSet, beq_iff_eq, h0, if_true, List.mem_cons] at h
      rcases h with h | h
      · exact absurd (h ▸ rfl) hk
      · exact List.mem_cons_of_mem _ h
    · simp only [alSet, beq_iff_eq, h0, if_false, List.mem_cons] at h
      rcases h with h | h
      · exact h ▸ List.mem_cons_self _ _
      · exact List.mem_cons_of_mem _ (ih h)

theorem alKeys_alSet_sub (d : List (String × α)) (k : String) (v : α) :
    ∀ k' ∈ alKeys (alSet d k v), k' = k ∨ k' ∈ alKeys d := by
  intro k' hk'
  simp only [alKeys, List.mem_map] at hk'
  obtain ⟨kv, hkv, hke⟩ := hk'
  by_cases h : kv.1 = k
  · exact Or.inl (hke ▸ h)
  · exact Or.inr (by
      have := mem_alSet_of_ne d k v kv h hkv
      simp only [alKeys, List.mem_map]
      exact ⟨kv, this, hke⟩)

theorem alKeys_dictOf_sub (ks : List String) (f : String → α) :
    ∀ k ∈ alKeys (dictOf ks f), k ∈ ks := by
  suffices h : ∀ (acc : List (String × α)),
      ∀ k ∈ alKeys (ks.foldl (fun acc k => alSet acc k (f k)) acc),
        k ∈ ks ∨ k ∈ alKeys acc by
    intro k hk
    rcases h [] k hk with h' | h'
    · exact h'
    · simp [alKeys] at h'
  induction ks with
  | nil => intro acc k hk; exact Or.inr hk
  | cons k0 rest ih =>
    intro acc k hk
    simp only [List.foldl_cons] at hk
    rcases ih (alSet acc k0 (f k0)) k hk with h' | h'
    · exact Or.inl (List.mem_cons_of_mem _ h')
    · rcases alKeys_alSet_sub acc k0 (f k0) k h' with h'' | h''
      · exact Or.inl (h'' ▸ List.mem_cons_self _ _)
      · exact Or.inr h''

theorem dictOf_congr (ks : List String) (f g : String → α)
    (h : ∀ k ∈ ks, f k = g k) : dictOf ks f = dictOf ks g := by
  suffices hx : ∀ acc : List (String × α),
      ks.foldl (fun acc k => alSet acc k (f k)) acc =
        ks.foldl (fun acc k => alSet acc k (g k)) acc by
    exact hx []
  induction ks with
  | nil => intro acc; rfl
  | cons k0 rest ih =>
    intro acc
    simp only [List.foldl_cons]
    rw [h k0 (List.mem_cons_self _ _)]
    exact ih (fun k hk => h k (List.mem_cons_of_mem _ hk)) _

theorem charListLe_refl : ∀ l : List Char, charListLe l l = true
  | [] => rfl
  | a :: as => by simp [charListLe, charListLe_refl as]

theorem charListLe_total : ∀ l m : List Char, charListLe l m = true ∨ charListLe m l = true
  | [], _ => Or.inl rfl
  | _ :: _, [] => Or.inr rfl
  | a :: as, b :: bs => by
    rcases lt_trichotomy a b with h | h | h
    · exact Or.inl (by simp [charListLe, h])
    · subst h
      rcases charListLe_total as bs with h' | h'
      · exact Or.inl (by simp [charListLe, h'])
      · exact Or.inr (by simp [charListLe, h'])
    · exact Or.inr (by simp [charListLe, h])

theorem charListLe_trans :
    ∀ l m n : List Char, charListLe l m = true → charListLe m n = true →
      charListLe l n = true
  | [], _, _, _, _ => rfl
  | a :: as, [], n, h, _ => by simp [charListLe] at h
  | a :: as, b :: bs, [], _, h' => by simp [charListLe] at h'
  | a :: as, b :: bs, c :: cs, h, h' => by
    simp only [charListLe] at h h' ⊢
    rcases lt_trichotomy a b with hab | hab | hab
    · rcases lt_trichotomy b c with hbc | hbc | hbc
      · simp [lt_trans hab hbc]
      · subst hbc; simp [hab]
      · simp [hbc, not_lt_of_gt hbc] at h'
    · subst hab
      rcases lt_trichotomy a c with hac | hac | hac
      · simp [hac]
      · subst hac
        simp [lt_irrefl] at h h' ⊢
        exact charListLe_trans _ _ _ h h'
      · simp [hac, not_lt_of_gt hac] at h'
    · simp [hab, not_lt_of_gt hab] at h

theorem strLe_refl (s : String) : strLe s s = true := charListLe_refl _

theorem strLe_total (a b : String) : strLe a b = true ∨ strLe b a = true :=
  charListLe_total _ _

theorem strLe_trans (a b c : String) (h : strLe a b = true) (h' : strLe b c = true) :
    strLe a c = true := charListLe_trans _ _ _ h h'

theorem mergeSort_strLe_head (l : List String) (k : String) (rest : List String)
    (h : l.mergeSort strLe = k :: rest) :
    k ∈ l ∧ ∀ k' ∈ l, strLe k k' = true := by
  have hperm : k ∈ l := by
    have hmm : k ∈ l.mergeSort strLe ↔ k ∈ l := List.mem_mergeSort
    rw [h] at hmm
    exact hmm.mp (List.mem_cons_self _ _)
  refine ⟨hperm, ?_⟩
  intro k' hk'
  have hsorted := List.sorted_mergeSort
    (fun a b c hab hbc => strLe_trans a b c hab hbc)
    (fun a b => by rcases strLe_total a b with h' | h' <;> simp [h'])
    l
  rw [h] at hsorted
  have hk'm : k' ∈ k :: rest := by
    have hmm : k' ∈ l.mergeSort strLe ↔ k' ∈ l := List.mem_mergeSort
    rw [h] at hmm
    exact hmm.mpr hk'
  rcases List.mem_cons.mp hk'm with he | hm
  · exact he ▸ strLe_refl k
  · exact (List.pairwise_cons.mp hsorted).1 k' hm

/-! Lemmas showing that Python dict equality is an equivalence. -/

theorem dictEqQ_iff (a b : List (String × ℚ)) :
    dictEqQ a b = true ↔
      ((∀ kv ∈ a, hasKey b kv.1 = true ∧ lookupD b kv.1 0 = lookupD a kv.1 0) ∧
        ∀ kv ∈ b, hasKey a kv.1 = true) := by
  simp [dictEqQ, List.all_eq_true, Bool.and_eq_true]

theorem dictEqQ_refl (a : List (String × ℚ)) : dictEqQ a a = true := by
  rw [dictEqQ_iff]
  refine ⟨fun kv hkv => ⟨?_, rfl⟩, fun kv hkv => ?_⟩ <;>
    exact (hasKey_iff _ _).mpr ⟨kv, hkv, rfl⟩

theorem dictEqQ_symm (a b : List (String × ℚ)) (h : dictEqQ a b = true) :
    dictEqQ b a = true := by
  rw [dictEqQ_iff] at h ⊢
  obtain ⟨ha, hb⟩ := h
  refine ⟨fun kv hkv => ⟨hb kv hkv, ?_⟩, fun kv hkv => (ha kv hkv).1⟩
  obtain ⟨kv', hkv', hke⟩ := (hasKey_iff _ _).mp (hb kv hkv)
  have := (ha kv' hkv').2
  rw [hke] at this
  exact this.symm

theorem dictEqQ_trans (a b c : List (String × ℚ))
    (h : dictEqQ a b = true) (h' : dictEqQ b c = true) : dictEqQ a c = true := by
  rw [dictEqQ_iff] at h h' ⊢
  obtain ⟨hab, hba⟩ := h
  obtain ⟨hbc, hcb⟩ := h'
  constructor
  · intro kv hkv
    obtain ⟨hkb, hlab⟩ := hab kv hkv
    obtain ⟨kv', hkv', hke⟩ := (hasKey_iff _ _).mp hkb
    obtain ⟨hkc, hlbc⟩ := hbc kv' hkv'
    rw [hke] at hkc hlbc
    exact ⟨hkc, hlbc.trans hlab⟩
  · intro kv hkv
    obtain ⟨kv', hkv', hke⟩ := (hasKey_iff _ _).mp (hcb kv hkv)
    have := hba kv' hkv'
    rwa [hke] at this

theorem dictEqD_iff (a b : List (String × List (String × ℚ))) :
    dictEqD a b = true ↔
      ((∀ kv ∈ a, hasKey b kv.1 = true ∧
          dictEqQ (lookupD b kv.1 []) (lookupD a kv.1 []) = true) ∧
        ∀ kv ∈ b, hasKey a kv.1 = true) := by
  simp [dictEqD, List.all_eq_true, Bool.and_eq_true]

theorem dictEqD_refl (a : List (String × List (String × ℚ))) : dictEqD a a = true := by
  rw [dictEqD_iff]
  refine ⟨fun kv hkv => ⟨?_, dictEqQ_refl _⟩, fun kv hkv => ?_⟩ <;>
    exact (hasKey_iff _ _).mpr ⟨kv, hkv, rfl⟩

theorem dictEqD_symm (a b : List (String × List (String × ℚ))) (h : dictEqD a b = true) :
    dictEqD b a = true := by
  rw [dictEqD_iff] at h ⊢
  obtain ⟨ha, hb⟩ := h
  refine ⟨fun kv hkv => ⟨hb kv hkv, ?_⟩, fun kv hkv => (ha kv hkv).1⟩
  obtain ⟨kv', hkv', hke⟩ := (hasKey_iff _ _).mp (hb kv hkv)
  have := dictEqQ_symm _ _ (ha kv' hkv').2
  rwa [hke] at this

theorem dictEqD_trans (a b c : List (String × List (String × ℚ)))
    (h : dictEqD a b = true) (h' : dictEqD b c = true) : dictEqD a c = true := by
  rw [dictEqD_iff] at h h' ⊢
  obtain ⟨hab, hba⟩ := h
  obtain ⟨hbc, hcb⟩ := h'
  constructor
  · intro kv hkv
    obtain ⟨hkb, hlab⟩ := hab kv hkv
    obtain ⟨kv', hkv', hke⟩ := (hasKey_iff _ _).mp hkb
    obtain ⟨hkc, hlbc⟩ := hbc kv' hkv'
    rw [hke] at hkc hlbc
    exact ⟨hkc, dictEqQ_trans _ _ _ hlbc hlab⟩
  · intro kv hkv
    obtain ⟨kv', hkv', hke⟩ := (hasKey_iff _ _).mp (hcb kv hkv)
    have := hba kv' hkv'
    rwa [hke] at this

theorem mem_alSet (d : List (String × α)) (k : String) (v : α) (kv : String × α)
    (h : kv ∈ alSet d k v) : kv = (k, v) ∨ kv ∈ d := by
  induction d with
  | nil => simp only [alSet, List.mem_singleton] at h; exact Or.inl h
  | cons kv0 rest ih =>
    by_cases h0 : kv0.1 = k
    · simp only [alSet, beq_iff_eq, h0, if_true, List.mem_cons] at h
      rcases h with h | h
      · exact Or.inl h
      · exact Or.inr (List.mem_cons_of_mem _ h)
    · simp only [alSet, beq_iff_eq, h0, if_false, List.mem_cons] at h
      rcases h with h | h
      · exact Or.inr (h ▸ List.mem_cons_self _ _)
      · rcases ih h with h' | h'
        · exact Or.inl h'
        · exact Or.inr (List.mem_cons_of_mem _ h')

theorem alSet_ne_nil (d : List (String × α)) (k : String) (v : α) :
    alSet d k v ≠ [] := by
  cases d with
  | nil => simp [alSet]
  | cons kv rest =>
    by_cases h : kv.1 = k <;> simp [alSet, h]

theorem smFold_pos (sms : List (String × PyVal)) (acc : List (String × ℚ))
    (hacc : ∀ kv ∈ acc, 0 < kv.2) :
    ∀ kv ∈ sms.foldl (fun acc nm =>
        if safeFloat nm.2 1 ≤ 0 then acc else alSet acc nm.1 (safeFloat nm.2 1)) acc,
      0 < kv.2 := by
  induction sms generalizing acc with
  | nil => exact hacc
  | cons nm rest ih =>
    simp only [List.foldl_cons]
    apply ih
    by_cases h : safeFloat nm.2 1 ≤ 0
    · simpa [h] using hacc
    · intro kv hkv
      rw [if_neg h] at hkv
      rcases mem_alSet _ _ _ _ hkv with h' | h'
      · rw [h']; exact lt_of_not_le h
      · exact hacc kv h'

theorem smFold_nobase (sms : List (String × PyVal)) (acc : List (String × ℚ))
    (hsms : ∀ v, ("base", v) ∈ sms → safeFloat v 1 ≤ 0)
    (hacc : hasKey acc "base" = false) :
    hasKey (sms.foldl (fun acc nm =>
      if safeFloat nm.2 1 ≤ 0 then acc else alSet acc nm.1 (safeFloat nm.2 1)) acc)
      "base" = false := by
  induction sms generalizing acc with
  | nil => exact hacc
  | cons nm rest ih =>
    simp only [List.foldl_cons]
    apply ih
    · intro v hv
      exact hsms v (List.mem_cons_of_mem _ hv)
    · by_cases h : safeFloat nm.2 1 ≤ 0
      · simpa [h] using hacc
      · rw [if_neg h, hasKey_alSet, hacc]
        have hne : nm.1 ≠ "base" := by
          intro he
          exact h (hsms nm.2 (by
            have : nm = ("base", nm.2) := by
              cases nm; simp_all
            exact this ▸ List.mem_cons_self _ _))
        simp [hne]

theorem extractSM_none_eval :
    extractScenarioMultipliers none =
      [("conservative", 85/100), ("base", 1), ("optimistic", 115/100)] := by
  norm_num [extractScenarioMultipliers, defaultScenarioMultipliers, safeFloat,
    alSet, hasKey, List.foldl]
  simp

theorem extractSM_some_nil_eval :
    extractScenarioMultipliers (some []) =
      [("conservative", 85/100), ("base", 1), ("optimistic", 115/100)] := by
  norm_num [extractScenarioMultipliers, defaultScenarioMultipliers, safeFloat,
    alSet, hasKey, List.foldl]
  simp

theorem lookupD_cons_pos (kv : String × α) (rest : List (String × α)) (k : String)
    (dflt : α) (h : kv.1 = k) : lookupD (kv :: rest) k dflt = kv.2 := by
  have e : List.find? (fun kv' => kv'.1 == k) (kv :: rest) = some kv :=
    List.find?_cons_of_pos _ (by simp [h])
  simp only [lookupD, e]

theorem lookupD_cons_neg (kv : String × α) (rest : List (String × α)) (k : String)
    (dflt : α) (h : kv.1 ≠ k) : lookupD (kv :: rest) k dflt = lookupD rest k dflt := by
  have e : List.find? (fun kv' => kv'.1 == k) (kv :: rest) =
      List.find? (fun kv' => kv'.1 == k) rest :=
    List.find?_cons_of_neg _ (by simp [h])
  simp only [lookupD, e]

theorem lookupD_nonnegDict (d : List (String × ℚ)) (k : String) :
    lookupD (nonnegDict d) k 0 = max 0 (lookupD d k 0) := by
  induction d with
  | nil => simp [nonnegDict, lookupD, List.find?]
  | cons kv rest ih =>
    simp only [nonnegDict, List.map_cons] at ih ⊢
    by_cases h : kv.1 = k
    · rw [lookupD_cons_pos (kv.1, if kv.2 < 0 then 0 else kv.2) _ k 0 h,
        lookupD_cons_pos kv _ k 0 h]
      rcases lt_or_le kv.2 0 with h2 | h2
      · rw [if_pos h2, max_eq_left h2.le]
      · rw [if_neg (not_lt.mpr h2), max_eq_right h2]
    · rw [lookupD_cons_neg (kv.1, if kv.2 < 0 then 0 else kv.2) _ k 0 h,
        lookupD_cons_neg kv _ k 0 h]
      exact ih

set_option maxHeartbeats 2000000 in
theorem penalty_clamp_form (p1 p2 q3 : Prop) [Decidable p1] [Decidable p2] [Decidable q3]
    (b4 b5 b6 : Bool) :
    (let s : ℤ := 100
     let s := if p1 then s - 20 else if p2 then s - 12 else s
     let s := if q3 then s - 8 else s
     let s := if b4 then s - 10 else s
     let s := if b5 then s - 18 else s
     let s := if b6 then s - 12 else s
     let s := if s < 40 then (40 : ℤ) else s
     let s := if s > 100 then (100 : ℤ) else s
     s) =
    max 40 (min 100 (100 -
      ((if p1 then 20 else if p2 then 12 else 0) + (if q3 then 8 else 0) +
        (if b4 then 10 else 0) + (if b5 then 18 else 0) +
        (if b6 then 12 else 0)))) := by
  dsimp only []
  split_ifs <;> omega

/-! Claim theorems. -/

/-- Claim C5: the single-scenario LP solve raises a hard error carrying the
raw solver status string exactly when the external solver terminates with a
status other than Optimal or Feasible, and returns an allocation result
otherwise; the solver is consulted once, with no internal retry. -/
theorem C5_solveSingleLP_status (oracle : LPOracle) (vg : List String) (B : ℚ)
    (sgw : List (String × ℚ)) (pgw rpg : List (String × List (String × ℚ)))
    (minP minG : List (String × ℚ))
    (hvg : vg.isEmpty = false) (hB : 1 < B) (hsgw : sgw.isEmpty = false)
    (hpgw : pgw.isEmpty = false) (hrpg : rpg.isEmpty = false) :
    (¬ (oracle.status = "Optimal" ∨ oracle.status = "Feasible") →
      solveSingleLP oracle vg B sgw pgw rpg minP minG =
        .error ("LP solve failed with status: " ++ oracle.status)) ∧
    ((oracle.status = "Optimal" ∨ oracle.status = "Feasible") →
      ∃ r, solveSingleLP oracle vg B sgw pgw rpg minP minG = .ok r) := by
  have hB' : ¬ B ≤ 1 := not_le.mpr hB
  constructor
  · intro hstat
    unfold solveSingleLP
    rw [if_neg (by simp [hvg]), if_neg hB', if_neg (by simp [hsgw]),
      if_neg (by simp [hpgw]), if_neg (by simp [hrpg]), if_pos hstat]
  · intro hstat
    unfold solveSingleLP
    rw [if_neg (by simp [hvg]), if_neg hB', if_neg (by simp [hsgw]),
      if_neg (by simp [hpgw]), if_neg (by simp [hrpg]), if_neg (not_not.mpr hstat)]
    exact ⟨_, rfl⟩

/-- Witness for C5: a concrete solve with the raw status Infeasible returns
exactly the error carrying that status. -/
theorem C5_witness :
    solveSingleLP ⟨"Infeasible", fun _ _ => .num 0, .num 0⟩ ["aw"] 1000 [("aw", 1)]
        [("fb", [("aw", 1)])] [("fb", [("aw", 2)])] [] [] =
      .error "LP solve failed with status: Infeasible" := by
  have h := (C5_solveSingleLP_status ⟨"Infeasible", fun _ _ => .num 0, .num 0⟩ ["aw"] 1000
    [("aw", 1)] [("fb", [("aw", 1)])] [("fb", [("aw", 2)])] [] [] rfl (by norm_num)
    rfl rfl rfl).1 (by decide)
  exact h

/-- Claim C6 (amended): policy extraction raises an infeasibility error
exactly when the platform-floor sum or the goal-floor sum, restricted to the
active platforms and valid goals, exceeds total_budget + 1e-9; the check
lives in extraction, before any solve.  In particular no error is raised
when neither sum exceeds the total budget. -/
theorem C6_extractPolicy_feasibility (msp mbg : List (String × ℚ))
    (sm : Option (List (String × PyVal))) (vg ap : List String) (B : ℚ) :
    (∃ e, extractPolicyFromState msp mbg sm vg ap B = .error e) ↔
      (valuesSum (dictOf ap (fun p => max 0 (lookupD (nonnegDict msp) p 0))) > B + eps9 ∨
        valuesSum (dictOf vg (fun g => max 0 (lookupD (nonnegDict mbg) g 0))) > B + eps9) := by
  simp only [extractPolicyFromState]
  split_ifs with h1 h2
  · simpa using Or.inl h1
  · simpa using Or.inr h2
  · simp [h1, h2]

/-- Counterexample for C6 as stated: a declared platform floor summing to
1000 + 1e-10 strictly exceeds the total budget of 1000, yet extraction
returns successfully instead of raising, because the code only raises when
a floor sum exceeds budget + 1e-9. -/
theorem C6_counterexample :
    extractPolicyFromState [("fb", 1000 + 1/10000000000)] [] none ["aw"] ["fb"] 1000 =
      .ok ([("fb", 1000 + 1/10000000000)], [("aw", 0)],
        [("conservative", 85/100), ("base", 1), ("optimistic", 115/100)]) ∧
    (1000 : ℚ) < 1000 + 1/10000000000 := by
  constructor
  · norm_num [extractPolicyFromState, nonnegDict, extractScenarioMultipliers,
      defaultScenarioMultipliers, safeFloat, dictOf, alSet, lookupD, hasKey,
      valuesSum, eps9, List.foldl, List.find?]
    simp
  · norm_num

/-- Claim C7 (amended): the scenario-multiplier map produced by policy
extraction is non-empty, contains the key "base", and contains only positive
multipliers; non-positive entries of the supplied map are dropped (while a
non-numeric entry is coerced to 1.0 and kept), and "base" receives the value
1.0 whenever the supplied map contributes no positive "base" entry of its
own. -/
theorem C7_scenario_multipliers (stateSM : Option (List (String × PyVal))) :
    extractScenarioMultipliers stateSM ≠ [] ∧
    hasKey (extractScenarioMultipliers stateSM) "base" = true ∧
    (∀ kv ∈ extractScenarioMultipliers stateSM, 0 < kv.2) ∧
    ((∀ m, stateSM = some m → ∀ v, ("base", v) ∈ m → safeFloat v 1 ≤ 0) →
      lookupD (extractScenarioMultipliers stateSM) "base" 0 = 1) := by
  have hgen : ∀ sms : List (String × PyVal),
      (if hasKey (sms.foldl (fun acc nm =>
          if safeFloat nm.2 1 ≤ 0 then acc else alSet acc nm.1 (safeFloat nm.2 1)) [])
          "base" = true
        then sms.foldl (fun acc nm =>
          if safeFloat nm.2 1 ≤ 0 then acc else alSet acc nm.1 (safeFloat nm.2 1)) []
        else alSet (sms.foldl (fun acc nm =>
          if safeFloat nm.2 1 ≤ 0 then acc else alSet acc nm.1 (safeFloat nm.2 1)) [])
          "base" 1) ≠ [] ∧
      hasKey (if hasKey (sms.foldl (fun acc nm =>
          if safeFloat nm.2 1 ≤ 0 then acc else alSet acc nm.1 (safeFloat nm.2 1)) [])
          "base" = true
        then sms.foldl (fun acc nm =>
          if safeFloat nm.2 1 ≤ 0 then acc else alSet acc nm.1 (safeFloat nm.2 1)) []
        else alSet (sms.foldl (fun acc nm =>
          if safeFloat nm.2 1 ≤ 0 then acc else alSet acc nm.1 (safeFloat nm.2 1)) [])
          "base" 1) "base" = true ∧
      (∀ kv ∈ (if hasKey (sms.foldl (fun acc nm =>
          if safeFloat nm.2 1 ≤ 0 then acc else alSet acc nm.1 (safeFloat nm.2 1)) [])
          "base" = true
        then sms.foldl (fun acc nm =>
          if safeFloat nm.2 1 ≤ 0 then acc else alSet acc nm.1 (safeFloat nm.2 1)) []
        else alSet (sms.foldl (fun acc nm =>
          if safeFloat nm.2 1 ≤ 0 then acc else alSet acc nm.1 (safeFloat nm.2 1)) [])
          "base" 1), 0 < kv.2) := by
    intro sms
    by_cases hkey : hasKey (sms.foldl (fun acc nm =>
        if safeFloat nm.2 1 ≤ 0 then acc else alSet acc nm.1 (safeFloat nm.2 1)) [])
        "base" = true
    · rw [if_pos hkey]
      refine ⟨?_, hkey, smFold_pos sms [] (by simp)⟩
      intro hnil
      rw [hnil] at hkey
      simp [hasKey] at hkey
    · rw [if_neg hkey]
      refine ⟨alSet_ne_nil _ _ _, ?_, ?_⟩
      · rw [hasKey_alSet]
        simp
      · intro kv hkv
        rcases mem_alSet _ _ _ _ hkv with h' | h'
        · rw [h']; norm_num
        · exact smFold_pos sms [] (by simp) kv h'
  match stateSM with
  | none =>
    have heq : extractScenarioMultipliers none =
        (if hasKey (defaultScenarioMultipliers.foldl (fun acc nm =>
            if safeFloat nm.2 1 ≤ 0 then acc else alSet acc nm.1 (safeFloat nm.2 1)) [])
            "base" = true
          then defaultScenarioMultipliers.foldl (fun acc nm =>
            if safeFloat nm.2 1 ≤ 0 then acc else alSet acc nm.1 (safeFloat nm.2 1)) []
          else alSet (defaultScenarioMultipliers.foldl (fun acc nm =>
            if safeFloat nm.2 1 ≤ 0 then acc else alSet acc nm.1 (safeFloat nm.2 1)) [])
            "base" 1) := by
      simp only [extractScenarioMultipliers]
    have h := hgen defaultScenarioMultipliers
    rw [← heq] at h
    refine ⟨h.1, h.2.1, h.2.2, fun _ => ?_⟩
    rw [extractSM_none_eval]
    simp [lookupD, List.find?]
  | some m =>
    by_cases hm : m.isEmpty
    · have hmnil : m = [] := List.isEmpty_iff.mp hm
      subst hmnil
      have heq : extractScenarioMultipliers (some []) =
          (if hasKey (defaultScenarioMultipliers.foldl (fun acc nm =>
              if safeFloat nm.2 1 ≤ 0 then acc else alSet acc nm.1 (safeFloat nm.2 1)) [])
              "base" = true
            then defaultScenarioMultipliers.foldl (fun acc nm =>
              if safeFloat nm.2 1 ≤ 0 then acc else alSet acc nm.1 (safeFloat nm.2 1)) []
            else alSet (defaultScenarioMultipliers.foldl (fun acc nm =>
              if safeFloat nm.2 1 ≤ 0 then acc else alSet acc nm.1 (safeFloat nm.2 1)) [])
              "base" 1) := by
        simp only [extractScenarioMultipliers, List.isEmpty_nil, if_true]
      have h := hgen defaultScenarioMultipliers
      rw [← heq] at h
      refine ⟨h.1, h.2.1, h.2.2, fun _ => ?_⟩
      rw [extractSM_some_nil_eval]
      simp [lookupD, List.find?]
    · have heq : extractScenarioMultipliers (some m) =
          (if hasKey (m.foldl (fun acc nm =>
              if safeFloat nm.2 1 ≤ 0 then acc else alSet acc nm.1 (safeFloat nm.2 1)) [])
              "base" = true
            then m.foldl (fun acc nm =>
              if safeFloat nm.2 1 ≤ 0 then acc else alSet acc nm.1 (safeFloat nm.2 1)) []
            else alSet (m.foldl (fun acc nm =>
              if safeFloat nm.2 1 ≤ 0 then acc else alSet acc nm.1 (safeFloat nm.2 1)) [])
              "base" 1) := by
        simp only [extractScenarioMultipliers, hm, Bool.false_eq_true, if_false]
      have h := hgen m
      rw [← heq] at h
      refine ⟨h.1, h.2.1, h.2.2, fun hyp => ?_⟩
      have hnb : ∀ v, ("base", v) ∈ m → safeFloat v 1 ≤ 0 := hyp m rfl
      have hkey : hasKey (m.foldl (fun acc nm =>
          if safeFloat nm.2 1 ≤ 0 then acc else alSet acc nm.1 (safeFloat nm.2 1)) [])
          "base" = false :=
        smFold_nobase m [] hnb rfl
      rw [heq, if_neg (by rw [hkey]; exact Bool.false_ne_true)]
      exact lookupD_alSet_self _ _ _ _

/-- Witness for C7: a supplied map with one negative multiplier yields a
non-empty all-positive map containing "base" with value 1.0. -/
theorem C7_witness :
    extractScenarioMultipliers (some [("s", PyVal.num (-1))]) ≠ [] ∧
    hasKey (extractScenarioMultipliers (some [("s", PyVal.num (-1))])) "base" = true ∧
    (∀ kv ∈ extractScenarioMultipliers (some [("s", PyVal.num (-1))]), 0 < kv.2) ∧
    lookupD (extractScenarioMultipliers (some [("s", PyVal.num (-1))])) "base" 0 = 1 := by
  have h := C7_scenario_multipliers (some [("s", PyVal.num (-1))])
  refine ⟨h.1, h.2.1, h.2.2.1, h.2.2.2 ?_⟩
  intro m hm v hv
  rw [Option.some.injEq] at hm
  subst hm
  simp at hv

/-- Counterexample for C7 as stated: a supplied positive "base" entry is kept
with its own value (not 1.0), and a non-numeric entry is coerced to 1.0 and
kept rather than dropped. -/
theorem C7_counterexample :
    lookupD (extractScenarioMultipliers (some [("base", PyVal.num 2)])) "base" 0 = 2 ∧
    extractScenarioMultipliers (some [("weird", PyVal.nonnum)]) =
      [("weird", 1), ("base", 1)] := by
  constructor
  · norm_num [extractScenarioMultipliers, defaultScenarioMultipliers, safeFloat,
      alSet, hasKey, lookupD, List.foldl, List.find?]
  · norm_num [extractScenarioMultipliers, defaultScenarioMultipliers, safeFloat,
      alSet, hasKey, List.foldl]
    simp

/-- Claim C8: every emitted forecast row satisfies predicted_kpi =
ratio_kpi_per_budget * allocated_budget exactly, with a positive ratio, a
positive prediction, and an allocation at or above the activity threshold;
hence no row is emitted for a below-threshold pair, for a non-positive
ratio, or for a non-positive product. -/
theorem C8_forecast_rows (kr : List (String × List (String × List (String × ℚ))))
    (m5 : Module5LPResult) (thr : ℚ) (res : Module6Result)
    (hok : computeModule6Forecast kr m5 thr = .ok res) :
    ∀ row ∈ res.rows,
      row.predicted_kpi = row.ratio_kpi_per_budget * row.allocated_budget ∧
      0 < row.ratio_kpi_per_budget ∧
      0 < row.predicted_kpi ∧
      thr ≤ row.allocated_budget := by
  simp only [computeModule6Forecast] at hok
  by_cases hthr : thr ≤ 0
  · rw [if_pos hthr] at hok
    exact absurd hok (by simp)
  · rw [if_neg hthr] at hok
    rw [Except.ok.injEq] at hok
    subst hok
    intro row hrow
    simp only [List.mem_mergeSort, List.mem_flatMap] at hrow
    obtain ⟨pg, hpg, hrow⟩ := hrow
    by_cases hpe : pg.2.isEmpty
    · rw [if_pos hpe] at hrow; simp at hrow
    · rw [if_neg hpe] at hrow
      simp only [List.mem_flatMap] at hrow
      obtain ⟨gv, hgv, hrow⟩ := hrow
      by_cases hbud : gv.2 < thr
      · rw [if_pos hbud] at hrow; simp at hrow
      · rw [if_neg hbud] at hrow
        by_cases hre : (lookupD (lookupD (normaliseRatiosPGV kr) pg.1 []) gv.1 []).isEmpty
        · rw [if_pos hre] at hrow; simp at hrow
        · rw [if_neg hre] at hrow
          simp only [List.mem_filterMap] at hrow
          obtain ⟨kv, hkv, hf⟩ := hrow
          by_cases hr0 : kv.2 ≤ 0
          · rw [if_pos hr0] at hf; exact absurd hf (by simp)
          · rw [if_neg hr0] at hf
            by_cases hp0 : kv.2 * gv.2 ≤ 0
            · rw [if_pos hp0] at hf; exact absurd hf (by simp)
            · rw [if_neg hp0] at hf
              rw [Option.some.injEq] at hf
              subst hf
              exact ⟨rfl, not_le.mp hr0, not_le.mp hp0, not_lt.mp hbud⟩

/-- Witness for C8: a run with one historical KPI ratio 2 for the pair
(fb, aw) funded with 100 emits exactly the row predicting 200. -/
theorem C8_witness :
    (200 : ℚ) = 2 * 100 ∧ (0 : ℚ) < 2 ∧ (0 : ℚ) < 200 ∧ (1 : ℚ) ≤ 100 := by
  have h := C8_forecast_rows [("fb", [("aw", [("imp", 2)])])]
    ⟨[("fb", [("aw", 100)])], [("fb", 100)], 100, 200, [("fb", [("aw", 2)])],
      [("fb", [("aw", 1)])], [("fb", [("aw", 200)])]⟩ 1
    ⟨[⟨"fb", "aw", "imp", 2, 100, 200⟩]⟩
    (by
      norm_num [computeModule6Forecast, normaliseAllocationPG, normaliseRatiosPGV,
        alSet, lookupD, hasKey, List.foldl, List.find?, List.mergeSort,
        show normKey "fb" = "fb" from by decide,
        show normKey "aw" = "aw" from by decide,
        show pyStrip "imp" = "imp" from by decide]
      simp
      norm_num)
    ⟨"fb", "aw", "imp", 2, 100, 200⟩ (by simp)
  exact h

/-- Claim C10: declared floors are restricted to the derived domains.
Extraction depends only on the floor values at the supplied active platforms
and valid goals (entries for other keys are silently discarded and excluded
from the pre-solve feasibility sums), the extracted floor maps carry keys
only from those domains, and every floor constraint added to the LP model
names a platform of the productivity table or a valid goal. -/
theorem C10_floor_domain_restriction (mspA mspB mbgA mbgB : List (String × ℚ))
    (sm : Option (List (String × PyVal))) (vg ap : List String) (B : ℚ)
    (hP : ∀ p ∈ ap, lookupD mspA p 0 = lookupD mspB p 0)
    (hG : ∀ g ∈ vg, lookupD mbgA g 0 = lookupD mbgB g 0) :
    extractPolicyFromState mspA mbgA sm vg ap B =
      extractPolicyFromState mspB mbgB sm vg ap B ∧
    (∀ res, extractPolicyFromState mspA mbgA sm vg ap B = .ok res →
      (∀ k ∈ alKeys res.1, k ∈ ap) ∧ (∀ k ∈ alKeys res.2.1, k ∈ vg)) ∧
    (∀ platforms combined rpg minP minG tb,
      (∀ c ∈ (buildLPModel platforms vg combined rpg minP minG tb).platformFloors,
        c.1 ∈ platforms) ∧
      (∀ c ∈ (buildLPModel platforms vg combined rpg minP minG tb).goalFloors,
        c.1 ∈ vg)) := by
  have hdict1 : dictOf ap (fun p => max 0 (lookupD (nonnegDict mspA) p 0)) =
      dictOf ap (fun p => max 0 (lookupD (nonnegDict mspB) p 0)) :=
    dictOf_congr _ _ _ (fun p hp => by
      rw [lookupD_nonnegDict, lookupD_nonnegDict, hP p hp])
  have hdict2 : dictOf vg (fun g => max 0 (lookupD (nonnegDict mbgA) g 0)) =
      dictOf vg (fun g => max 0 (lookupD (nonnegDict mbgB) g 0)) :=
    dictOf_congr _ _ _ (fun g hg => by
      rw [lookupD_nonnegDict, lookupD_nonnegDict, hG g hg])
  refine ⟨?_, ?_, ?_⟩
  · simp only [extractPolicyFromState]
    rw [hdict1, hdict2]
  · intro res hok
    simp only [extractPolicyFromState] at hok
    by_cases h1 : valuesSum (dictOf ap (fun p => max 0 (lookupD (nonnegDict mspA) p 0))) >
        B + eps9
    · rw [if_pos h1] at hok
      exact absurd hok (by simp)
    · rw [if_neg h1] at hok
      by_cases h2 : valuesSum (dictOf vg (fun g => max 0 (lookupD (nonnegDict mbgA) g 0))) >
          B + eps9
      · rw [if_pos h2] at hok
        exact absurd hok (by simp)
      · rw [if_neg h2] at hok
        rw [Except.ok.injEq] at hok
        subst hok
        exact ⟨alKeys_dictOf_sub _ _, alKeys_dictOf_sub _ _⟩
  · intro platforms combined rpg minP minG tb
    constructor <;> intro c hc
    · simp only [buildLPModel, List.mem_filterMap] at hc
      obtain ⟨p, hp, hf⟩ := hc
      by_cases hm : lookupD minP p 0 > 0
      · rw [if_pos hm, Option.some.injEq] at hf
        rw [← hf]
        exact hp
      · rw [if_neg hm] at hf
        simp at hf
    · simp only [buildLPModel, List.mem_filterMap] at hc
      obtain ⟨g, hg, hf⟩ := hc
      by_cases hm : lookupD minG g 0 > 0
      · rw [if_pos hm, Option.some.injEq] at hf
        rw [← hf]
        exact hg
      · rw [if_neg hm] at hf
        simp at hf

/-- Witness for C10: adding an out-of-domain platform floor entry (key "zz"
with a huge value) changes nothing about extraction against active platform
fb and valid goal aw. -/
theorem C10_witness :
    extractPolicyFromState [("fb", 100), ("zz", 999999)] [] none ["aw"] ["fb"] 1000 =
      extractPolicyFromState [("fb", 100)] [] none ["aw"] ["fb"] 1000 ∧
    (∀ res, extractPolicyFromState [("fb", 100), ("zz", 999999)] [] none ["aw"] ["fb"] 1000 =
        .ok res →
      (∀ k ∈ alKeys res.1, k ∈ ["fb"]) ∧ (∀ k ∈ alKeys res.2.1, k ∈ ["aw"])) := by
  have h := C10_floor_domain_restriction [("fb", 100), ("zz", 999999)] [("fb", 100)] [] []
    none ["aw"] ["fb"] 1000
    (by
      intro p hp
      simp only [List.mem_singleton] at hp
      subst hp
      simp [lookupD, List.find?])
    (by intro g hg; rfl)
  exact ⟨h.1, h.2.1⟩

theorem find?_of_hasKey (d : List (String × α)) (k : String) (dflt : α)
    (h : hasKey d k = true) :
    ∃ kv, List.find? (fun kv' => kv'.1 == k) d = some kv ∧
      lookupD d k dflt = kv.2 := by
  cases hf : List.find? (fun kv' => kv'.1 == k) d with
  | none =>
    obtain ⟨kv, hkv, hke⟩ := (hasKey_iff d k).mp h
    have := List.find?_eq_none.mp hf kv hkv
    simp [hke] at this
  | some kv => exact ⟨kv, rfl, by simp only [lookupD, hf]⟩

theorem find?_of_not_hasKey (d : List (String × α)) (k : String)
    (h : hasKey d k = false) :
    List.find? (fun kv' => kv'.1 == k) d = none := by
  rw [List.find?_eq_none]
  intro kv hkv
  intro hb
  have : hasKey d k = true := (hasKey_iff d k).mpr ⟨kv, hkv, by simpa using hb⟩
  rw [this] at h
  exact Bool.noConfusion h

theorem mergeSort_ne_nil (l : List String) (h : l ≠ []) :
    ∃ k rest, l.mergeSort strLe = k :: rest := by
  cases hms : l.mergeSort strLe with
  | nil =>
    have : (l.mergeSort strLe).length = l.length := List.length_mergeSort l
    rw [hms] at this
    simp at this
    exact absurd this.symm (by simpa using h)
  | cons k rest => exact ⟨k, rest, rfl⟩

/-- Claim C9: get_base returns the result stored under "base" when that key
is present, otherwise the result under the alphabetically smallest scenario
name; the module 5 variant raises exactly when the bundle is empty, while
the module 6 variant returns an empty result on an empty bundle. -/
theorem C9_get_base (b5 : List (String × Module5LPResult))
    (b6 : List (String × Module6Result)) :
    (hasKey b5 "base" = true → module5GetBase b5 = .ok (lookupD b5 "base" default)) ∧
    (hasKey b5 "base" = false → b5 ≠ [] →
      ∃ k, k ∈ alKeys b5 ∧ (∀ k' ∈ alKeys b5, strLe k k' = true) ∧
        module5GetBase b5 = .ok (lookupD b5 k default)) ∧
    (module5GetBase b5 = .error "No scenario results available." ↔ b5 = []) ∧
    (hasKey b6 "base" = true → module6GetBase b6 = lookupD b6 "base" default) ∧
    (hasKey b6 "base" = false → b6 ≠ [] →
      ∃ k, k ∈ alKeys b6 ∧ (∀ k' ∈ alKeys b6, strLe k k' = true) ∧
        module6GetBase b6 = lookupD b6 k default) ∧
    (b6 = [] → module6GetBase b6 = { rows := [] }) := by
  refine ⟨?_, ?_, ?_, ?_, ?_, ?_⟩
  · intro h
    obtain ⟨kv, hf, hl⟩ := find?_of_hasKey b5 "base" default h
    rw [module5GetBase, hf, hl]
  · intro h hne
    have hf := find?_of_not_hasKey b5 "base" h
    have hkeys : alKeys b5 ≠ [] := by
      intro he
      exact hne (by simpa [alKeys] using congrArg List.length he)
    obtain ⟨k, rest, hms⟩ := mergeSort_ne_nil _ hkeys
    obtain ⟨hmem, hmin⟩ := mergeSort_strLe_head _ _ _ hms
    exact ⟨k, hmem, hmin, by rw [module5GetBase, hf, hms]⟩
  · constructor
    · intro herr
      by_contra hne
      cases hf : List.find? (fun kv' => kv'.1 == "base") b5 with
      | some kv => rw [module5GetBase, hf] at herr; exact absurd herr (by simp)
      | none =>
        have hkeys : alKeys b5 ≠ [] := by
          intro he
          exact hne (by simpa [alKeys] using congrArg List.length he)
        obtain ⟨k, rest, hms⟩ := mergeSort_ne_nil _ hkeys
        rw [module5GetBase, hf, hms] at herr
        exact absurd herr (by simp)
    · intro he
      subst he
      simp [module5GetBase, alKeys, List.find?, List.mergeSort_nil]
  · intro h
    obtain ⟨kv, hf, hl⟩ := find?_of_hasKey b6 "base" default h
    rw [module6GetBase, hf, hl]
  · intro h hne
    have hf := find?_of_not_hasKey b6 "base" h
    have hkeys : alKeys b6 ≠ [] := by
      intro he
      exact hne (by simpa [alKeys] using congrArg List.length he)
    obtain ⟨k, rest, hms⟩ := mergeSort_ne_nil _ hkeys
    obtain ⟨hmem, hmin⟩ := mergeSort_strLe_head _ _ _ hms
    exact ⟨k, hmem, hmin, by rw [module6GetBase, hf, hms]⟩
  · intro he
    subst he
    simp [module6GetBase, alKeys, List.find?, List.mergeSort_nil]

/-- Witness for C9: on a concrete two-scenario bundle without "base", the
base getter returns the result under the alphabetically smallest key. -/
theorem C9_witness :
    ∃ k, k ∈ alKeys [("b", (default : Module5LPResult)), ("a", default)] ∧
      (∀ k' ∈ alKeys [("b", (default : Module5LPResult)), ("a", default)],
        strLe k k' = true) ∧
      module5GetBase [("b", (default : Module5LPResult)), ("a", default)] =
        .ok (lookupD [("b", (default : Module5LPResult)), ("a", default)] k default) := by
  exact (C9_get_base [("b", default), ("a", default)] []).2.1 (by decide) (by simp)

theorem round6_int (n : ℤ) : round6 ((n : ℚ)) = (n : ℚ) := by
  unfold round6
  rw [show ((n : ℚ) * 1000000) = ((n * 1000000 : ℤ) : ℚ) by push_cast; ring,
    round_intCast]
  push_cast
  field_simp

theorem allocationsIdentical_all (rbs : List (String × Module5LPResult))
    (hid : allocationsIdentical rbs = true) :
    ∀ k ∈ alKeys rbs, ∀ k' ∈ alKeys rbs,
      dictEqD (allocSignature (lookupD rbs k default))
        (allocSignature (lookupD rbs k' default)) = true := by
  intro k hk k' hk'
  unfold allocationsIdentical at hid
  cases hkeys : alKeys rbs with
  | nil => rw [hkeys] at hk; simp at hk
  | cons k0 rest =>
    cases rest with
    | nil =>
      rw [hkeys] at hk hk'
      simp only [List.mem_singleton] at hk hk'
      subst hk
      subst hk'
      exact dictEqD_refl _
    | cons k1 rest' =>
      rw [hkeys] at hid
      dsimp only at hid
      have hbase : ∀ x ∈ alKeys rbs,
          dictEqD (allocSignature (lookupD rbs x default))
            (allocSignature (lookupD rbs k0 default)) = true := by
        intro x hx
        rw [hkeys] at hx
        rcases List.mem_cons.mp hx with he | hm
        · subst he
          exact dictEqD_refl _
        · exact List.all_eq_true.mp hid x hm
      exact dictEqD_trans _ _ _ (hbase k hk) (dictEqD_symm _ _ (hbase k' hk'))

/-- Claim C4: whenever the rounded per-pair allocation signatures of any two
scenarios in a bundle differ, the classification of every scenario of that
bundle is Scenario-sensitive, irrespective of the concentration ratio or the
nonzero-pair count; the concentration rules run only when all signatures
agree. -/
theorem C4_scenario_sensitive (bundle : Module5ScenarioBundle) (lp : Module5LPResult)
    (i j : String)
    (hi : i ∈ alKeys bundle.results_by_scenario)
    (hj : j ∈ alKeys bundle.results_by_scenario)
    (hne : dictEqD (allocSignature (lookupD bundle.results_by_scenario i default))
      (allocSignature (lookupD bundle.results_by_scenario j default)) = false) :
    classification bundle lp = "Scenario-sensitive" := by
  have hid : allocationsIdentical bundle.results_by_scenario = false := by
    cases hb : allocationsIdentical bundle.results_by_scenario
    · rfl
    · have := allocationsIdentical_all _ hb i hi j hj
      rw [hne] at this
      exact Bool.noConfusion this
  rw [classification, hid]
  simp

/-- Witness for C4: a bundle whose base scenario allocates 400 to (fb, aw)
while the optimistic scenario allocates 500 is classified
Scenario-sensitive. -/
theorem C4_witness :
    classification
      ⟨[("base", ⟨[("fb", [("aw", 400)])], [("fb", 400)], 400, 0, [], [], []⟩),
        ("optimistic", ⟨[("fb", [("aw", 500)])], [("fb", 500)], 500, 0, [], [], []⟩)],
        [("base", 1)]⟩
      ⟨[("fb", [("aw", 400)])], [("fb", 400)], 400, 0, [], [], []⟩ =
      "Scenario-sensitive" := by
  apply C4_scenario_sensitive _ _ "base" "optimistic" (by decide) (by decide)
  norm_num [allocSignature, dictEqD, dictEqQ, alSet, lookupD, hasKey,
    List.foldl, List.find?,
    show normKey "fb" = "fb" from by decide,
    show normKey "aw" = "aw" from by decide,
    show round6 ((400 : ℚ)) = 400 from by
      rw [show ((400 : ℚ)) = ((400 : ℤ) : ℚ) by norm_num, round6_int],
    show round6 ((500 : ℚ)) = 500 from by
      rw [show ((500 : ℚ)) = ((500 : ℤ) : ℚ) by norm_num, round6_int]]

theorem sumPG_congr (ps gs : List String) (f g : String → String → ℚ)
    (h : ∀ p gl, f p gl = g p gl) : sumPG ps gs f = sumPG ps gs g := by
  unfold sumPG
  congr 1
  apply List.map_congr_left
  intro p _
  congr 1
  apply List.map_congr_left
  intro gl _
  exact h p gl

/-- Claim C1 (amended): for every result returned by the single-scenario LP
solve, the total allocated budget is at most total_budget + 1e-6 (indeed at
most total_budget), under the hypothesis that the external solver returns
variable values satisfying both the model's budget constraint and the
variables' declared lower bounds (nonnegativity). -/
theorem C1_budget_bound (oracle : LPOracle) (vg : List String) (B : ℚ)
    (sgw : List (String × ℚ)) (pgw rpg : List (String × List (String × ℚ)))
    (minP minG : List (String × ℚ)) (v : String → String → ℚ)
    (hval : ∀ p g, oracle.value p g = PyVal.num (v p g))
    (hnn : ∀ p g, 0 ≤ v p g)
    (hsum : sumPG (alKeys rpg) vg v ≤ B)
    (r : Module5LPResult)
    (hok : solveSingleLP oracle vg B sgw pgw rpg minP minG = .ok r) :
    r.total_budget_used ≤ B + eps6 := by
  simp only [solveSingleLP] at hok
  by_cases h1 : vg.isEmpty = true
  · rw [if_pos h1] at hok; exact absurd hok (by simp)
  · rw [if_neg h1] at hok
    by_cases h2 : B ≤ 1
    · rw [if_pos h2] at hok; exact absurd hok (by simp)
    · rw [if_neg h2] at hok
      by_cases h3 : sgw.isEmpty = true
      · rw [if_pos h3] at hok; exact absurd hok (by simp)
      · rw [if_neg h3] at hok
        by_cases h4 : pgw.isEmpty = true
        · rw [if_pos h4] at hok; exact absurd hok (by simp)
        · rw [if_neg h4] at hok
          by_cases h5 : rpg.isEmpty = true
          · rw [if_pos h5] at hok; exact absurd hok (by simp)
          · rw [if_neg h5] at hok
            by_cases h6 : ¬ (oracle.status = "Optimal" ∨ oracle.status = "Feasible")
            · rw [if_pos h6] at hok; exact absurd hok (by simp)
            · rw [if_neg h6] at hok
              rw [Except.ok.injEq] at hok
              subst hok
              have hv : ∀ p g,
                  (if safeFloat (oracle.value p g) 0 < 0 then 0
                    else safeFloat (oracle.value p g) 0) = v p g := by
                intro p g
                rw [hval p g]
                simp only [safeFloat]
                rw [if_neg (not_lt.mpr (hnn p g))]
              calc sumPG (alKeys rpg) vg (fun p g =>
                    if safeFloat (oracle.value p g) 0 < 0 then 0
                    else safeFloat (oracle.value p g) 0) =
                  sumPG (alKeys rpg) vg v := sumPG_congr _ _ _ _ hv
                _ ≤ B := hsum
                _ ≤ B + eps6 := by norm_num [eps9, eps6]

/-- Counterexample for C1 as stated: solver values (1000.001, -0.001) for the
two pairs satisfy the budget constraint (their sum is exactly the budget
1000), yet after negative clamping the recorded total budget used is
1000.001, exceeding total_budget + 1e-6. -/
theorem C1_counterexample :
    sumPG ["fb"] ["aw", "en"]
      (fun _ g => if g = "en" then -1/1000 else 1000 + 1/1000) ≤ 1000 ∧
    solveSingleLP
      ⟨"Optimal", fun _ g => .num (if g = "en" then -1/1000 else 1000 + 1/1000),
        .num 2000⟩
      ["aw", "en"] 1000 [("aw", 1)] [("fb", [("aw", 1)])] [("fb", [("aw", 2)])] [] [] =
      .ok ⟨[("fb", [("aw", 1000 + 1/1000), ("en", 0)])], [("fb", 1000 + 1/1000)],
        1000 + 1/1000, 2000, [("fb", [("aw", 2)])], [("fb", [("aw", 1), ("en", 0)])],
        [("fb", [("aw", 2000 + 1/500), ("en", 0)])]⟩ ∧
    (1000 + 1/1000 : ℚ) > 1000 + eps6 := by
  refine ⟨by norm_num [sumPG] <;> simp, ?_, by norm_num [eps6]⟩
  norm_num [solveSingleLP, buildLPModel, dictOf, alSet, lookupD, hasKey, sumPG,
    safeFloat, alKeys, List.foldl, List.find?,
    show ¬("aw" = "en") from by decide, show ¬("en" = "aw") from by decide] <;> simp


set_option maxHeartbeats 2000000 in
/-- Claim C3 (amended): the confidence score starts from 100 and subtracts
the stepwise penalties of the code (20 if the top-platform share is at least
0.90, else 12 if at least 0.80; 8 if at most two pairs are funded; 10 if
allocations differ across scenarios; 18 if the forecast is missing or
empty; 12 if a data-quality note was raised), then clamps into [40, 100];
in particular the confidence score always lies in [40, 100]. -/
theorem C3_confidence_clamped (lp : Module5LPResult) (bundle : Module5ScenarioBundle)
    (fc : Option Module6Result) (dq : Option String) :
    40 ≤ confidence lp bundle fc dq ∧ confidence lp bundle fc dq ≤ 100 ∧
    confidence lp bundle fc dq =
      max 40 (min 100 (100 -
        ((if topShare (platformTotals lp) ≥ 9/10 then 20
          else if topShare (platformTotals lp) ≥ 8/10 then 12 else 0) +
         (if nonzeroAllocations lp ≤ 2 then 8 else 0) +
         (if !allocationsIdentical bundle.results_by_scenario then 10 else 0) +
         (if (match fc with | none => true | some f => f.rows.isEmpty) then 18 else 0) +
         (if optTruthy dq then 12 else 0)))) := by
  have heq : confidence lp bundle fc dq =
      max 40 (min 100 (100 -
        ((if topShare (platformTotals lp) ≥ 9/10 then 20
          else if topShare (platformTotals lp) ≥ 8/10 then 12 else 0) +
         (if nonzeroAllocations lp ≤ 2 then 8 else 0) +
         (if !allocationsIdentical bundle.results_by_scenario then 10 else 0) +
         (if (match fc with | none => true | some f => f.rows.isEmpty) then 18 else 0) +
         (if optTruthy dq then 12 else 0)))) := by
    unfold confidence
    exact penalty_clamp_form _ _ _ _ _ _
  refine ⟨?_, ?_, heq⟩
  · rw [heq]
    exact le_max_left _ _
  · rw [heq]
    exact max_le (by norm_num) (min_le_left _ _)

set_option maxHeartbeats 2000000 in
/-- Counterexample for C3 as stated: the code gives confidence 100 on a
stable bundle and 90 on an unstable bundle built from the same scenario
result and forecast, but no concentration and coverage component values can
make the claimed weighted formula produce both numbers, because the
stability component contributes exactly 0.20 * (95 - 70) = 5 and rounding
commutes with an integer shift. -/
theorem C3_counterexample :
    confidence lpC3A bundleC3A (some fcC3) (dataQualityNote lpC3A (some fcC3)) = 100 ∧
    confidence lpC3A bundleC3B (some fcC3) (dataQualityNote lpC3A (some fcC3)) = 90 ∧
    ¬ ∃ conc cover : ℚ,
      specConfidence conc 95 cover 90 =
        confidence lpC3A bundleC3A (some fcC3) (dataQualityNote lpC3A (some fcC3)) ∧
      specConfidence conc 70 cover 90 =
        confidence lpC3A bundleC3B (some fcC3) (dataQualityNote lpC3A (some fcC3)) := by
  have htopA : topShare (platformTotals lpC3A) = 2/5 := by
    norm_num [topShare, platformTotals, lpC3A, alSet, lookupD, List.foldl,
      show normKey "fb" = "fb" from by decide,
      show normKey "ig" = "ig" from by decide,
      show normKey "li" = "li" from by decide]
    simp
    norm_num
  have hnzA : nonzeroAllocations lpC3A = 3 := by
    norm_num [nonzeroAllocations, lpC3A, eps6, List.foldl]
  have hdq : dataQualityNote lpC3A (some fcC3) = none := by
    norm_num [dataQualityNote, lpC3A, fcC3, List.filter]
  have hidA : allocationsIdentical bundleC3A.results_by_scenario = true := rfl
  have hsigA : allocSignature lpC3A =
      [("fb", [("aw", 400)]), ("ig", [("aw", 300)]), ("li", [("aw", 300)])] := by
    norm_num [allocSignature, lpC3A, alSet, lookupD, List.foldl, List.find?,
      show normKey "fb" = "fb" from by decide,
      show normKey "ig" = "ig" from by decide,
      show normKey "li" = "li" from by decide,
      show normKey "aw" = "aw" from by decide,
      show round6 ((400 : ℚ)) = 400 from by
        rw [show ((400 : ℚ)) = ((400 : ℤ) : ℚ) by norm_num, round6_int],
      show round6 ((300 : ℚ)) = 300 from by
        rw [show ((300 : ℚ)) = ((300 : ℤ) : ℚ) by norm_num, round6_int]]
    simp
  have hsigB : allocSignature lpC3B =
      [("fb", [("aw", 500)]), ("ig", [("aw", 250)]), ("li", [("aw", 250)])] := by
    norm_num [allocSignature, lpC3B, alSet, lookupD, List.foldl, List.find?,
      show normKey "fb" = "fb" from by decide,
      show normKey "ig" = "ig" from by decide,
      show normKey "li" = "li" from by decide,
      show normKey "aw" = "aw" from by decide,
      show round6 ((500 : ℚ)) = 500 from by
        rw [show ((500 : ℚ)) = ((500 : ℤ) : ℚ) by norm_num, round6_int],
      show round6 ((250 : ℚ)) = 250 from by
        rw [show ((250 : ℚ)) = ((250 : ℤ) : ℚ) by norm_num, round6_int]]
    simp
  have hidB : allocationsIdentical bundleC3B.results_by_scenario = false := by
    have hl1 : lookupD bundleC3B.results_by_scenario "optimistic" default = lpC3B := by
      simp [bundleC3B, lookupD, List.find?]
    have hl2 : lookupD bundleC3B.results_by_scenario "base" default = lpC3A := by
      simp [bundleC3B, lookupD, List.find?]
    have hd : dictEqD
        (allocSignature (lookupD bundleC3B.results_by_scenario "optimistic" default))
        (allocSignature (lookupD bundleC3B.results_by_scenario "base" default)) = false := by
      rw [hl1, hl2, hsigA, hsigB]
      simp [dictEqD, dictEqQ, hasKey, lookupD, List.find?]
    have hstep : allocationsIdentical bundleC3B.results_by_scenario =
        (dictEqD
          (allocSignature (lookupD bundleC3B.results_by_scenario "optimistic" default))
          (allocSignature (lookupD bundleC3B.results_by_scenario "base" default)) &&
          true) := rfl
    rw [hstep, hd]
    rfl
  have hcfA : confidence lpC3A bundleC3A (some fcC3) (dataQualityNote lpC3A (some fcC3)) =
      max 40 (min 100 (100 -
        ((if topShare (platformTotals lpC3A) ≥ 9/10 then 20
          else if topShare (platformTotals lpC3A) ≥ 8/10 then 12 else 0) +
         (if nonzeroAllocations lpC3A ≤ 2 then 8 else 0) +
         (if !allocationsIdentical bundleC3A.results_by_scenario then 10 else 0) +
         (if (match (some fcC3 : Option Module6Result) with
              | none => true | some f => f.rows.isEmpty) then 18 else 0) +
         (if optTruthy (dataQualityNote lpC3A (some fcC3)) then 12 else 0)))) := by
    unfold confidence
    exact penalty_clamp_form _ _ _ _ _ _
  have hcfB : confidence lpC3A bundleC3B (some fcC3) (dataQualityNote lpC3A (some fcC3)) =
      max 40 (min 100 (100 -
        ((if topShare (platformTotals lpC3A) ≥ 9/10 then 20
          else if topShare (platformTotals lpC3A) ≥ 8/10 then 12 else 0) +
         (if nonzeroAllocations lpC3A ≤ 2 then 8 else 0) +
         (if !allocationsIdentical bundleC3B.results_by_scenario then 10 else 0) +
         (if (match (some fcC3 : Option Module6Result) with
              | none => true | some f => f.rows.isEmpty) then 18 else 0) +
         (if optTruthy (dataQualityNote lpC3A (some fcC3)) then 12 else 0)))) := by
    unfold confidence
    exact penalty_clamp_form _ _ _ _ _ _
  have eA : confidence lpC3A bundleC3A (some fcC3) (dataQualityNote lpC3A (some fcC3)) = 100 := by
    rw [hcfA, htopA, hnzA, hidA, hdq]
    norm_num [fcC3, optTruthy]
  have eB : confidence lpC3A bundleC3B (some fcC3) (dataQualityNote lpC3A (some fcC3)) = 90 := by
    rw [hcfB, htopA, hnzA, hidB, hdq]
    norm_num [fcC3, optTruthy]
  refine ⟨eA, eB, ?_⟩
  rintro ⟨c, cov, hA, hB⟩
  rw [eA] at hA
  rw [eB] at hB
  simp only [specConfidence] at hA hB
  have hrB : round ((35/100) * c + (20/100) * 70 + (25/100) * cov + (20/100) * 90) =
      (90 : ℤ) := by
    rw [max_def, min_def] at hB
    split_ifs at hB <;> omega
  have hWA : (35/100) * c + (20/100) * 95 + (25/100) * cov + (20/100) * 90 =
      ((35/100) * c + (20/100) * 70 + (25/100) * cov + (20/100) * 90) + ((5 : ℤ) : ℚ) := by
    push_cast
    ring
  rw [hWA, round_add_int, hrB] at hA
  norm_num at hA

/-- Witness for C1: with nonnegative solver values of 500 on the single pair
under a budget of 1000, the recorded total budget used stays within the
bound. -/
theorem C1_witness : (500 : ℚ) ≤ 1000 + eps6 := by
  have h := C1_budget_bound ⟨"Optimal", fun _ _ => .num 500, .num 1000⟩ ["aw"] 1000
    [("aw", 1)] [("fb", [("aw", 1)])] [("fb", [("aw", 2)])] [] [] (fun _ _ => 500)
    (fun _ _ => rfl) (fun _ _ => by norm_num) (by norm_num [sumPG, alKeys])
    ⟨[("fb", [("aw", 500)])], [("fb", 500)], 500, 1000, [("fb", [("aw", 2)])],
      [("fb", [("aw", 1)])], [("fb", [("aw", 1000)])]⟩
    (by norm_num [solveSingleLP, buildLPModel, dictOf, alSet, lookupD, hasKey,
      sumPG, safeFloat, alKeys, List.foldl, List.find?] <;> simp)
  exact h

set_option maxHeartbeats 2000000 in
/-- Claim C2, evaluated on the code at a concrete corner allocation: Plan A
reports the LP optimum 2000, while Plan B's estimate is 1,400,000 — the raw
weighted sum 700 * 2 inflated by the 1000.0 fallback of _objective_scale
(the probed field objective_value_raw never exists on Module5LPResult) — so
the claimed invariant that Plan B never exceeds Plan A fails on the code. -/
theorem C2_planB_exceeds_planA :
    (planA lpC2).objective_value_estimate = 2000 ∧
    (∃ pb, planBRiskManaged stateC2 lpC2 (7/10) = some pb ∧
      pb.objective_value_estimate = 1400000 ∧
      pb.tradeoff_percent = none) ∧
    (2000 : ℚ) < 1400000 := by
  refine ⟨by norm_num [planA, lpC2], ?_, by norm_num⟩
  refine ⟨⟨[("fb", [("aw", 700)])], 1400000, "Diversified execution", none⟩, ?_, rfl, rfl⟩
  norm_num [planBRiskManaged, planA, stateC2, lpC2, scorePG, objectiveScale,
    estimateObjectiveValue, applyMinimums, dominant, platformTotals, goalTotals,
    dictOf, alSet, lookupD, hasKey, alKeys, sumPG, eps6, eps9, optTruthy,
    pname, gname, platformNames, goalNames,
    List.foldl, List.find?, List.mergeSort,
    show normKey "fb" = "fb" from by decide,
    show normKey "aw" = "aw" from by decide]

end DBO
